import Mathlib

/-!
# Verification of the supertrend trading-analysis core

A shallow embedding of `src/infrastructure/technical_analysis.py` (class
`TechnicalAnalysisService`) together with the entity types of
`src/domain/entities.py`.  Prices and indicator values are modelled as
rationals (`ℚ`); a Python `NaN` / missing value is modelled as `none` in
`Option ℚ`; a Python exception is modelled by the `Except` monad, and the
`try/except` of `analyze_market` (lines 167-202) by a match that maps every
error to `none`.  Timestamps are modelled as integers; the three wall-clock
readings `pd.Timestamp.now()` taken by `analyze_market` (lines 165, 205, 208)
are explicit integer parameters `t0 t1 t2` (seconds).
-/

/-- `SignalType` from `src/domain/entities.py` lines 11-15. -/
inductive SignalType where
  | BUY
  | SELL
  | HOLD
deriving DecidableEq, Repr

/-- `TrendDirection` from `src/domain/entities.py` lines 17-21. -/
inductive TrendDirection where
  | BULLISH
  | BEARISH
  | NEUTRAL
deriving DecidableEq, Repr

/-- `MarketData` from `src/domain/entities.py` lines 23-33 (symbol and
timeframe labels omitted from rows only where unused; kept here). -/
structure MarketData where
  symbol : String
  timeframe : String
  timestamp : Int
  open_ : ℚ
  high : ℚ
  low : ℚ
  close : ℚ
  volume : ℚ
deriving DecidableEq, Repr, Inhabited

/-- One row of the indicator `DataFrame` built by `_calculate_indicators`
(lines 55-78): the OHLCV columns plus the seven indicator columns.  A `none`
models a `NaN` cell. -/
structure IndRow where
  timestamp : Int
  open_ : ℚ
  high : ℚ
  low : ℚ
  close : ℚ
  volume : ℚ
  supertrend : Option ℚ
  supertrend_direction : Option ℚ
  rsi : Option ℚ
  macd_line : Option ℚ
  macd_signal : Option ℚ
  pivot_high : Option ℚ
  pivot_low : Option ℚ
deriving DecidableEq, Repr, Inhabited

/-- The dict returned by `_calculate_dynamic_sr` (line 92). -/
structure SRLevels where
  support : Option ℚ
  resistance : Option ℚ
deriving DecidableEq, Repr

/-- `TradingSignal` from `src/domain/entities.py` lines 51-72 (the fields set
by `_generate_signal`; numeric risk fields are `Option ℚ` because the Python
values are `NaN` whenever the envelope value at the trigger bar is `NaN`). -/
structure TradingSignal where
  symbol : String
  signal_type : SignalType
  timestamp : Int
  price : ℚ
  supertrend_value : Option ℚ
  trend_direction : TrendDirection
  timeframe : String
  entry_price : ℚ
  stop_loss : Option ℚ
  take_profit : Option ℚ
  support_level : Option ℚ
  resistance_level : Option ℚ
deriving DecidableEq, Repr

/-- `IndicatorData` from `src/domain/entities.py` lines 35-49. -/
structure IndicatorData where
  symbol : String
  timestamp : Int
  support_level : Option ℚ
  resistance_level : Option ℚ
  supertrend : Option ℚ
  trend_direction : TrendDirection
  rsi : Option ℚ
  macd_line : Option ℚ
  macd_signal : Option ℚ
deriving DecidableEq, Repr

/-- `AnalysisResult` from `src/domain/entities.py` lines 74-84 (the fields set
by `analyze_market` lines 204-209). -/
structure AnalysisResult where
  symbol : String
  timeframe : String
  timestamp : Int
  market_data : MarketData
  indicator_data : IndicatorData
  signal : Option TradingSignal
  higher_tf_trend : TrendDirection
  analysis_duration_ms : ℚ
deriving DecidableEq, Repr

/-- Python exceptions that the analysis pipeline can raise.  The repository
defines no exception classes of its own (in particular no
`InsufficientDataError`); `typeError` models the library-level `TypeError`
raised when an indicator call returns no frame and is subscripted, and
`indexError` models `iloc` / `[-1]` on an empty frame or list.  The
constructor `insufficientData` exists only to state the spec's error
taxonomy (spec section 7); no code path produces it. -/
inductive PyErr where
  | typeError (site : String)
  | indexError
  | insufficientData
deriving DecidableEq, Repr

/-- Minimum of a list of rationals, `none` on the empty list
(Python `min(..., default=None)`, line 89). -/
def listMin? : List ℚ → Option ℚ
  | [] => none
  | x :: xs =>
    match listMin? xs with
    | none => some x
    | some m => some (min x m)

/-- Maximum of a list of rationals, `none` on the empty list
(Python `max(..., default=None)`, line 90). -/
def listMax? : List ℚ → Option ℚ
  | [] => none
  | x :: xs =>
    match listMax? xs with
    | none => some x
    | some m => some (max x m)

/-- `df.tail(n)`: the last `n` elements of a list. -/
def listTail (n : Nat) (l : List α) : List α := l.drop (l.length - n)

/-- `l.iloc[-2]`: the second-to-last element. -/
def secondLast? (l : List α) : Option α := (l.reverse.tail).head?

/-- The expression `TrendDirection.BULLISH if v == 1 else TrendDirection.BEARISH`
used at `technical_analysis.py` lines 107, 172 and 192.  A `NaN` direction
(`none`) compares unequal to `1` in Python, hence maps to `BEARISH`. -/
def trendOfVal (v : Option ℚ) : TrendDirection :=
  if v = some 1 then TrendDirection.BULLISH else TrendDirection.BEARISH

/-- `_calculate_dynamic_sr` (lines 80-92): over the last 100 rows, collect the
distinct defined pivot highs/lows; resistance is the least pivot high strictly
above the last close, support the greatest pivot low strictly below it.
Returns `none` when the frame is empty (`df.iloc[-1]` raises `IndexError`). -/
def dynamicSR (df : List IndRow) : Option SRLevels :=
  match df.getLast? with
  | none => none
  | some last =>
    let recent := listTail 100 df
    let recent_highs := (recent.filterMap IndRow.pivot_high).dedup
    let recent_lows := (recent.filterMap IndRow.pivot_low).dedup
    let current_price := last.close
    let resistance := listMin? (recent_highs.filter (fun p => decide (current_price < p)))
    let support := listMax? (recent_lows.filter (fun p => decide (p < current_price)))
    some { support := support, resistance := resistance }

/-- `_generate_signal` (lines 94-156).  The Python comparisons
`current_trend_val == 1` are false on `NaN`, hence the `= some 1` tests; the
truthiness guards `if sr_levels["resistance"] and ...` are false on `None`
and on `0.0`, hence the explicit `r ≠ 0` conjuncts; `min`/`max` with a `NaN`
first argument return `NaN`, hence the `Option.map`. -/
def generateSignal (symbol : String) (current previous : IndRow)
    (sr_levels : SRLevels) (higher_timeframe_trend : TrendDirection) :
    Option TradingSignal :=
  let current_price := current.close
  let current_trend_val := current.supertrend_direction
  let prev_trend_val := previous.supertrend_direction
  let primary_trend := trendOfVal current_trend_val
  let signal_type : Option SignalType :=
    if current_trend_val = some 1 ∧ prev_trend_val = some (-1) then
      if higher_timeframe_trend = TrendDirection.BULLISH then some SignalType.BUY
      else none
    else if current_trend_val = some (-1) ∧ prev_trend_val = some 1 then
      if higher_timeframe_trend = TrendDirection.BEARISH then some SignalType.SELL
      else none
    else none
  match signal_type with
  | none => none
  | some st =>
    let stop_loss := current.supertrend
    let risk := stop_loss.map (fun sl => |current_price - sl|)
    let take_profit : Option ℚ :=
      if st = SignalType.BUY then
        let potential_tp := risk.map (fun r => current_price + r * 2)
        match sr_levels.resistance with
        | some res =>
          if res ≠ 0 ∧ current_price < res then potential_tp.map (fun tp => min tp res)
          else potential_tp
        | none => potential_tp
      else
        let potential_tp := risk.map (fun r => current_price - r * 2)
        match sr_levels.support with
        | some sup =>
          if sup ≠ 0 ∧ sup < current_price then potential_tp.map (fun tp => max tp sup)
          else potential_tp
        | none => potential_tp
    some { symbol := symbol
           signal_type := st
           timestamp := current.timestamp
           price := current_price
           supertrend_value := current.supertrend
           trend_direction := primary_trend
           timeframe := "1h/4h"
           entry_price := current_price
           stop_loss := stop_loss
           take_profit := take_profit
           support_level := sr_levels.support
           resistance_level := sr_levels.resistance }

/-- `analyze_market` lines 171-209: everything after the two indicator passes.
`hlast` is the last row of the higher-timeframe frame (line 171), `dfPrimary`
the primary indicator frame; `t1` is the clock reading stored as the result
timestamp (line 205) and `t2 - t0` the measured duration (lines 165, 208). -/
def analyzeFrom (symbol : String) (primary_market_data : List MarketData)
    (hlast : IndRow) (dfPrimary : List IndRow) (t0 t1 t2 : Int) :
    Except PyErr AnalysisResult :=
  let higher_timeframe_trend := trendOfVal hlast.supertrend_direction
  match dynamicSR dfPrimary with
  | none => Except.error PyErr.indexError
  | some sr_levels =>
    match dfPrimary.getLast? with
    | none => Except.error PyErr.indexError
    | some latest_data =>
      match secondLast? dfPrimary with
      | none => Except.error PyErr.indexError
      | some previous_data =>
        match primary_market_data.getLast? with
        | none => Except.error PyErr.indexError
        | some market_last =>
          Except.ok
            { symbol := symbol
              timeframe := "1h/4h"
              timestamp := t1
              market_data := market_last
              indicator_data :=
                { symbol := symbol
                  timestamp := latest_data.timestamp
                  supertrend := latest_data.supertrend
                  trend_direction := trendOfVal latest_data.supertrend_direction
                  support_level := sr_levels.support
                  resistance_level := sr_levels.resistance
                  rsi := latest_data.rsi
                  macd_line := latest_data.macd_line
                  macd_signal := latest_data.macd_signal }
              signal := generateSignal symbol latest_data previous_data sr_levels
                  higher_timeframe_trend
              higher_tf_trend := higher_timeframe_trend
              analysis_duration_ms := ((t2 - t0 : Int) : ℚ) * 1000 }

example : trendOfVal (some 1) = TrendDirection.BULLISH := by decide
example : trendOfVal none = TrendDirection.BEARISH := by decide
example : listMin? [5, 3, 7] = some 3 := by decide
example : secondLast? [1, 2, 3] = some 2 := by decide

/-- One forward-fill pass carrying the last defined value (`df.ffill`,
line 76, per column). -/
def ffillGo (carry : Option ℚ) : List (Option ℚ) → List (Option ℚ)
  | [] => []
  | none :: t => carry :: ffillGo carry t
  | some x :: t => some x :: ffillGo (some x) t

/-- `df.ffill` on one column. -/
def ffillCol (l : List (Option ℚ)) : List (Option ℚ) := ffillGo none l

/-- `df.bfill` on one column (line 75): fill each gap with the next defined
value. -/
def bfillCol (l : List (Option ℚ)) : List (Option ℚ) :=
  (ffillGo none l.reverse).reverse

/-- The edge-filling pass of `_calculate_indicators` lines 74-76: backward
fill then forward fill. -/
def edgeFill (l : List (Option ℚ)) : List (Option ℚ) := ffillCol (bfillCol l)

/-- Midpoint `hl2` of a bar. -/
def hl2 (b : MarketData) : ℚ := (b.high + b.low) / 2

/-- Modelled from the spec (section 4.1, glossary): the per-bar true range,
`max(high − low, |high − prev close|, |low − prev close|)`.  The
pandas-ta implementation called at line 58 is not part of the repository. -/
def trueRange (prevClose : ℚ) (b : MarketData) : ℚ :=
  max (b.high - b.low) (max |b.high - prevClose| |b.low - prevClose|)

/-- Modelled from the spec (section 4.1 step 1): the trend-envelope
(SuperTrend) recursion at the configured envelope lookback 1, under which the
Wilder smoothing of the true range is the identity.  Bands are the midpoint
offset by `mult × true range`; the direction flips to +1 when close crosses
above the previously-active upper band and to −1 when it crosses below the
previously-active lower band, otherwise the previous direction persists and
the active band only ratchets toward price.  The first bar has an undefined
true range (no previous close), so its envelope value is undefined and its
direction is the initial bullish state; the pandas-ta implementation called
at lines 58-60 is not part of the repository.  Output: per bar, the envelope
value (`none` = undefined) and the direction (+1 / −1). -/
def stGo (mult : ℚ) (prevDir : Int) (prevBands : Option (ℚ × ℚ))
    (prevClose : ℚ) : List MarketData → List (Option ℚ × Int)
  | [] => []
  | b :: rest =>
    let tr := trueRange prevClose b
    let bub := hl2 b + mult * tr
    let blb := hl2 b - mult * tr
    match prevBands with
    | none =>
      (some (if prevDir = 1 then blb else bub), prevDir) ::
        stGo mult prevDir (some (bub, blb)) b.close rest
    | some (pub, plb) =>
      let dir : Int := if pub < b.close then 1 else if b.close < plb then -1 else prevDir
      let ub := if dir = -1 ∧ prevDir = -1 then min bub pub else bub
      let lb := if dir = 1 ∧ prevDir = 1 then max blb plb else blb
      (some (if dir = 1 then lb else ub), dir) ::
        stGo mult dir (some (ub, lb)) b.close rest

/-- Modelled from the spec: the full envelope columns (value, direction) for a
bar series; the first bar carries the initial bullish direction and an
undefined value. -/
def supertrendCols (mult : ℚ) : List MarketData → List (Option ℚ × Int)
  | [] => []
  | b :: bs => (none, 1) :: stGo mult 1 none b.close bs

/-- Exponential moving average continuation with smoothing factor `alpha`. -/
def emaGo (alpha : ℚ) (a : ℚ) : List ℚ → List ℚ
  | [] => []
  | x :: xs =>
    let a2 := alpha * x + (1 - alpha) * a
    a2 :: emaGo alpha a2 xs

/-- Modelled from the spec (section 4.1 step 3): exponential moving average of
period `n` (smoothing factor `2/(n+1)`), seeded with the first sample. -/
def ema (n : ℚ) : List ℚ → List ℚ
  | [] => []
  | x :: xs => x :: emaGo (2 / (n + 1)) x xs

/-- Modelled from the spec (section 4.1 step 3): the momentum-convergence
line, fast EMA minus slow EMA of the closes (fast 12, slow 26, line 66-68 of
the source; the pandas-ta implementation is not part of the repository). -/
def macdLine (closes : List ℚ) : List ℚ :=
  List.zipWith (fun a b => a - b) (ema 12 closes) (ema 26 closes)

/-- Modelled from the spec: the convergence signal, EMA period 9 of the line. -/
def macdSignalLine (closes : List ℚ) : List ℚ := ema 9 (macdLine closes)

/-- Wilder running average step at period `p`: `((p−1)·a + x)/p`. -/
def rmaGo (p : ℚ) (a : ℚ) : List ℚ → List ℚ
  | [] => []
  | x :: xs =>
    let a2 := ((p - 1) * a + x) / p
    a2 :: rmaGo p a2 xs

/-- Per-bar gains of a close series: `max(diff, 0)` of successive closes. -/
def gainsOf (closes : List ℚ) : List ℚ :=
  List.zipWith (fun cur prev => max (cur - prev) 0) closes.tail closes

/-- Per-bar losses of a close series: `max(−diff, 0)` of successive closes. -/
def lossesOf (closes : List ℚ) : List ℚ :=
  List.zipWith (fun cur prev => max (prev - cur) 0) closes.tail closes

/-- Wilder smoothed averages over a difference stream at period 14: seeded
with the plain average of the first 14 samples, then the Wilder recursion;
one value per bar from bar 14 on (no value while fewer than 14 samples
exist). -/
def wilderAvgs (xs : List ℚ) : List ℚ :=
  if xs.length < 14 then []
  else
    let seed := (xs.take 14).sum / 14
    seed :: rmaGo 14 seed (xs.drop 14)

/-- The oscillator value from an average gain and an average loss:
`100·ag/(ag+al)`; when both averages are zero the ratio is undefined (`NaN`),
and when only the average loss is zero the value is exactly 100 — no
division-by-zero error is raised.  Modelled from the spec (section 4.1 step
2, section 7); the pandas-ta implementation called at line 63 is not part of
the repository. -/
def rsiVal (ag al : ℚ) : Option ℚ :=
  if ag + al = 0 then none else some (100 * ag / (ag + al))

/-- Modelled from the spec (section 4.1 step 2): the RSI column at period 14 —
undefined for the first 14 bars, then `rsiVal` of the Wilder-smoothed average
gains and losses. -/
def rsiCol (closes : List ℚ) : List (Option ℚ) :=
  List.replicate (min closes.length 14) none ++
    List.zipWith rsiVal (wilderAvgs (gainsOf closes)) (wilderAvgs (lossesOf closes))

/-- The centered rolling pivot-high column (line 71): for each index, the
maximum high over the centered window of `2·r + 1` bars, undefined when the
window does not fit. -/
def pivotHighCol (r : Nat) (bars : List MarketData) : List (Option ℚ) :=
  let highs := bars.map MarketData.high
  (List.range bars.length).map fun i =>
    if r ≤ i ∧ i + r < bars.length then
      listMax? ((highs.drop (i - r)).take (2 * r + 1))
    else none

/-- The centered rolling pivot-low column (line 72). -/
def pivotLowCol (r : Nat) (bars : List MarketData) : List (Option ℚ) :=
  let lows := bars.map MarketData.low
  (List.range bars.length).map fun i =>
    if r ≤ i ∧ i + r < bars.length then
      listMin? ((lows.drop (i - r)).take (2 * r + 1))
    else none

/-- The envelope-value column of a bar series. -/
def stValCol (mult : ℚ) (bars : List MarketData) : List (Option ℚ) :=
  (supertrendCols mult bars).map Prod.fst

/-- The envelope-direction column of a bar series (directions are defined on
every bar, as ±1). -/
def stDirCol (mult : ℚ) (bars : List MarketData) : List (Option ℚ) :=
  (supertrendCols mult bars).map (fun p => some ((p.2 : Int) : ℚ))

/-- The convergence-line column (defined on every bar). -/
def macdLineCol (closes : List ℚ) : List (Option ℚ) := (macdLine closes).map some

/-- The convergence-signal column (defined on every bar). -/
def macdSignalCol (closes : List ℚ) : List (Option ℚ) :=
  (macdSignalLine closes).map some

/-- The indicator frame rows: every column is computed, then edge-filled
(lines 57-76), and the rows reassembled positionally. -/
def buildRows (pivotR : Nat) (mult : ℚ) (bars : List MarketData) : List IndRow :=
  let closes := bars.map MarketData.close
  let stV := edgeFill (stValCol mult bars)
  let stD := edgeFill (stDirCol mult bars)
  let rsiC := edgeFill (rsiCol closes)
  let mlC := edgeFill (macdLineCol closes)
  let msC := edgeFill (macdSignalCol closes)
  let phC := edgeFill (pivotHighCol pivotR bars)
  let plC := edgeFill (pivotLowCol pivotR bars)
  (List.range bars.length).map fun i =>
    let b := bars.getD i default
    { timestamp := b.timestamp
      open_ := b.open_
      high := b.high
      low := b.low
      close := b.close
      volume := b.volume
      supertrend := stV.getD i none
      supertrend_direction := stD.getD i none
      rsi := rsiC.getD i none
      macd_line := mlC.getD i none
      macd_signal := msC.getD i none
      pivot_high := phC.getD i none
      pivot_low := plC.getD i none }

/-- Stable insertion of a bar into a timestamp-sorted list. -/
def insertByTs (b : MarketData) : List MarketData → List MarketData
  | [] => [b]
  | c :: cs => if c.timestamp < b.timestamp then c :: insertByTs b cs else b :: c :: cs

/-- `_market_data_to_dataframe` (lines 37-53): the frame rows sorted by
timestamp. -/
def marketDataToDf (l : List MarketData) : List MarketData :=
  l.foldr insertByTs []

/-- `_calculate_indicators` (lines 55-78) at the configured parameters
(pivot radius `pivotR`, envelope multiplier `mult`, envelope lookback 1).
The function performs no length validation of its own and the repository
defines no typed errors; modelled library behaviour: on an empty frame the
envelope call returns no frame and subscripting it raises a `TypeError`
(line 59), and on a series shorter than the slow convergence lookback (26)
the convergence call returns no frame and subscripting it raises a
`TypeError` (line 67).  Otherwise every column is computed and edge-filled. -/
def calcIndicators (pivotR : Nat) (mult : ℚ) (bars : List MarketData) :
    Except PyErr (List IndRow) :=
  let df := marketDataToDf bars
  if df.length = 0 then Except.error (PyErr.typeError "supertrend")
  else if df.length < 26 then Except.error (PyErr.typeError "macd")
  else Except.ok (buildRows pivotR mult df)

/-- The `try` block of `analyze_market` (lines 167-198): indicator pass on the
higher timeframe, read its last row, indicator pass on the primary timeframe,
then the signal stage; any raised error propagates out of the block. -/
def analyzeBody (pivotR : Nat) (mult : ℚ) (symbol : String)
    (primary_market_data higher_market_data : List MarketData)
    (t0 t1 t2 : Int) : Except PyErr AnalysisResult :=
  match calcIndicators pivotR mult higher_market_data with
  | Except.error e => Except.error e
  | Except.ok dfHigher =>
    match dfHigher.getLast? with
    | none => Except.error PyErr.indexError
    | some hlast =>
      match calcIndicators pivotR mult primary_market_data with
      | Except.error e => Except.error e
      | Except.ok dfPrimary =>
        analyzeFrom symbol primary_market_data hlast dfPrimary t0 t1 t2

/-- `analyze_market` (lines 158-209): the `except Exception` clause at lines
200-202 catches every error raised in the body, logs it, and returns `None`;
only a fully-assembled `AnalysisResult` is ever returned otherwise. -/
def analyze_market (pivotR : Nat) (mult : ℚ) (symbol : String)
    (primary_market_data higher_market_data : List MarketData)
    (t0 t1 t2 : Int) : Option AnalysisResult :=
  match analyzeBody pivotR mult symbol primary_market_data higher_market_data t0 t1 t2 with
  | Except.error _ => none
  | Except.ok r => some r

example : edgeFill [none, some 2, none, some 5, none] =
    [some 2, some 2, some 5, some 5, some 5] := by decide
example : rsiVal 3 0 = some 100 := by norm_num [rsiVal]
example : rsiVal 0 0 = none := by norm_num [rsiVal]

/-! ### Concrete sample data for witnesses and counterexamples -/

/-- A sample flat OHLCV bar. -/
def mkBar (ts : Int) (c : ℚ) : MarketData :=
  { symbol := "BTC/USDT", timeframe := "1h", timestamp := ts, open_ := c,
    high := c, low := c, close := c, volume := 1 }

/-- A sample indicator row with the given close, envelope direction, envelope
value and pivot levels. -/
def mkRow (ts : Int) (c : ℚ) (dir stv ph pl : Option ℚ) : IndRow :=
  { timestamp := ts, open_ := c, high := c, low := c, close := c, volume := 1,
    supertrend := stv, supertrend_direction := dir, rsi := some 50,
    macd_line := some 0, macd_signal := some 0, pivot_high := ph, pivot_low := pl }

/-- Sample row: bearish envelope direction. -/
def rowPrevS : IndRow := mkRow 1 10 (some (-1)) (some 8) none none

/-- Sample row: bullish envelope direction, with pivot levels giving
resistance 12 and support 5 around the close 10. -/
def rowCurS : IndRow := mkRow 2 10 (some 1) (some 8) (some 12) (some 5)

/-- Sample last higher-timeframe row with bullish direction. -/
def rowHigherS : IndRow := mkRow 0 10 (some 1) (some 9) none none

/-- Sample primary bar list. -/
def pmS : List MarketData := [mkBar 2 10]

/-- Sample two-row primary indicator frame with a bearish-to-bullish flip on
the last two rows. -/
def dfPS : List IndRow := [rowPrevS, rowCurS]

/-- A two-bar series (below every lookback). -/
def twoBars : List MarketData := [mkBar 1 10, mkBar 2 11]

/-- Bearish-direction row used by the 60-bar scenario. -/
def rowNegS : IndRow := mkRow 0 10 (some (-1)) (some 8) none none

/-- Bullish-direction row used by the 60-bar scenario. -/
def rowPosS : IndRow := mkRow 0 10 (some 1) (some 8) none none

/-- The 60-row primary frame of the spec's scenario: envelope direction −1 on
bars 1..58 (1-indexed) and +1 on bars 59..60. -/
def dfScenario : List IndRow := List.replicate 58 rowNegS ++ [rowPosS, rowPosS]

/-- The 60-row frame with the flip on the final bar: −1 on bars 1..59 and +1
on bar 60. -/
def dfScenarioAmended : List IndRow := List.replicate 59 rowNegS ++ [rowPosS]

/-- The support/resistance levels the analysis computes on the sample frame
`dfPS`. -/
def srS : SRLevels := { support := some 5, resistance := some 12 }

/-- The trading signal the analysis computes on the sample frame `dfPS`:
a BUY at close 10 with stop 8, risk 2, raw target 14 capped by the
resistance 12. -/
def sigS : TradingSignal :=
  { symbol := "BTC/USDT", signal_type := SignalType.BUY, timestamp := 2,
    price := 10, supertrend_value := some 8,
    trend_direction := TrendDirection.BULLISH, timeframe := "1h/4h",
    entry_price := 10, stop_loss := some 8, take_profit := some 12,
    support_level := some 5, resistance_level := some 12 }

/-- The analysis result computed on the sample inputs `pmS`, `rowHigherS`,
`dfPS` with all clock readings 0. -/
def resS : AnalysisResult :=
  { symbol := "BTC/USDT", timeframe := "1h/4h", timestamp := 0,
    market_data := mkBar 2 10,
    indicator_data :=
      { symbol := "BTC/USDT", timestamp := 2, support_level := some 5,
        resistance_level := some 12, supertrend := some 8,
        trend_direction := TrendDirection.BULLISH, rsi := some 50,
        macd_line := some 0, macd_signal := some 0 },
    signal := some sigS, higher_tf_trend := TrendDirection.BULLISH,
    analysis_duration_ms := 0 }

/-- A 26-bar constant series (every OHLC value 10): long enough for every
indicator family, with a fully constant indicator outcome. -/
def constBars : List MarketData := (List.range 26).map (fun i => mkBar i 10)

/-- The analysis result computed on `constBars` for both timeframes, with
result timestamp `t1` and measured duration `dur`: constant envelope 10 with
bullish direction throughout (hence no crossover and no signal), undefined
oscillator (constant closes), zero convergence values, and no
support/resistance strictly away from the constant close. -/
def resConst (t1 : Int) (dur : ℚ) : AnalysisResult :=
  { symbol := "X", timeframe := "1h/4h", timestamp := t1,
    market_data := mkBar 25 10,
    indicator_data :=
      { symbol := "X", timestamp := 25, support_level := none,
        resistance_level := none, supertrend := some 10,
        trend_direction := TrendDirection.BULLISH, rsi := none,
        macd_line := some 0, macd_signal := some 0 },
    signal := none, higher_tf_trend := TrendDirection.BULLISH,
    analysis_duration_ms := dur }

/-- The BUY signal computed on `dfScenarioAmended` (flip on the final bar,
no pivot levels, so the raw 2:1 target stands). -/
def sigC6 : TradingSignal :=
  { symbol := "X", signal_type := SignalType.BUY, timestamp := 0,
    price := 10, supertrend_value := some 8,
    trend_direction := TrendDirection.BULLISH, timeframe := "1h/4h",
    entry_price := 10, stop_loss := some 8, take_profit := some 14,
    support_level := none, resistance_level := none }

/-- The analysis result computed on `pmS`, `rowHigherS`, `dfScenarioAmended`
with all clock readings 0. -/
def resC6 : AnalysisResult :=
  { symbol := "X", timeframe := "1h/4h", timestamp := 0,
    market_data := mkBar 2 10,
    indicator_data :=
      { symbol := "X", timestamp := 0, support_level := none,
        resistance_level := none, supertrend := some 8,
        trend_direction := TrendDirection.BULLISH, rsi := some 50,
        macd_line := some 0, macd_signal := some 0 },
    signal := some sigC6, higher_tf_trend := TrendDirection.BULLISH,
    analysis_duration_ms := 0 }

/-- A 26-bar series, constant at 10 except a bump to 12 at bar 12: long
enough for every indicator family and non-degenerate for the oscillator. -/
def c8Bars : List MarketData :=
  (List.range 26).map (fun i => mkBar i (if i = 12 then 12 else 10))

/-- Fifteen strictly rising closes (one more than the oscillator lookback). -/
def closes15 : List ℚ := (List.range 15).map (fun i => 10 + i)

/-! ### Helper lemmas: list extrema -/

theorem listMin?_eq_none (l : List ℚ) : listMin? l = none ↔ l = [] := by
  cases l with
  | nil => simp [listMin?]
  | cons x xs =>
    rw [listMin?]
    cases listMin? xs <;> simp

theorem listMin?_mem (l : List ℚ) (m : ℚ) (h : listMin? l = some m) : m ∈ l := by
  induction l generalizing m with
  | nil => simp [listMin?] at h
  | cons x xs ih =>
    rw [listMin?] at h
    cases hx : listMin? xs with
    | none =>
      rw [hx] at h
      injection h with h
      simp [← h]
    | some m2 =>
      rw [hx] at h
      injection h with h
      rcases min_choice x m2 with h1 | h1
      · rw [← h, h1]
        exact List.mem_cons_self x xs
      · rw [← h, h1]
        exact List.mem_cons_of_mem x (ih m2 hx)

theorem listMin?_le (l : List ℚ) (m : ℚ) (h : listMin? l = some m) :
    ∀ y ∈ l, m ≤ y := by
  induction l generalizing m with
  | nil => simp
  | cons x xs ih =>
    rw [listMin?] at h
    cases hx : listMin? xs with
    | none =>
      rw [hx] at h
      injection h with h
      have hxs : xs = [] := (listMin?_eq_none xs).mp hx
      subst hxs
      intro y hy
      rcases List.mem_cons.mp hy with rfl | hy2
      · exact le_of_eq h.symm
      · simp at hy2
    | some m2 =>
      rw [hx] at h
      injection h with h
      intro y hy
      rcases List.mem_cons.mp hy with h3 | hy2
      · rw [← h, h3]; exact min_le_left x m2
      · rw [← h]
        exact le_trans (min_le_right x m2) (ih m2 hx y hy2)

theorem listMax?_eq_none (l : List ℚ) : listMax? l = none ↔ l = [] := by
  cases l with
  | nil => simp [listMax?]
  | cons x xs =>
    rw [listMax?]
    cases listMax? xs <;> simp

theorem listMax?_mem (l : List ℚ) (m : ℚ) (h : listMax? l = some m) : m ∈ l := by
  induction l generalizing m with
  | nil => simp [listMax?] at h
  | cons x xs ih =>
    rw [listMax?] at h
    cases hx : listMax? xs with
    | none =>
      rw [hx] at h
      injection h with h
      simp [← h]
    | some m2 =>
      rw [hx] at h
      injection h with h
      rcases max_choice x m2 with h1 | h1
      · rw [← h, h1]
        exact List.mem_cons_self x xs
      · rw [← h, h1]
        exact List.mem_cons_of_mem x (ih m2 hx)

theorem listMax?_ge (l : List ℚ) (m : ℚ) (h : listMax? l = some m) :
    ∀ y ∈ l, y ≤ m := by
  induction l generalizing m with
  | nil => simp
  | cons x xs ih =>
    rw [listMax?] at h
    cases hx : listMax? xs with
    | none =>
      rw [hx] at h
      injection h with h
      have hxs : xs = [] := (listMax?_eq_none xs).mp hx
      subst hxs
      intro y hy
      rcases List.mem_cons.mp hy with rfl | hy2
      · exact le_of_eq h
      · simp at hy2
    | some m2 =>
      rw [hx] at h
      injection h with h
      intro y hy
      rcases List.mem_cons.mp hy with h3 | hy2
      · rw [← h, h3]; exact le_max_left x m2
      · rw [← h]
        exact le_trans (ih m2 hx y hy2) (le_max_right x m2)

/-! ### Helper lemmas: the edge-fill pass -/

theorem ffillGo_length (carry : Option ℚ) (l : List (Option ℚ)) :
    (ffillGo carry l).length = l.length := by
  induction l generalizing carry with
  | nil => rfl
  | cons o t ih =>
    cases o with
    | none => simp [ffillGo, ih]
    | some x => simp [ffillGo, ih]

theorem bfillCol_length (l : List (Option ℚ)) : (bfillCol l).length = l.length := by
  simp [bfillCol, ffillGo_length]

theorem edgeFill_length (l : List (Option ℚ)) : (edgeFill l).length = l.length := by
  simp [edgeFill, ffillCol, ffillGo_length, bfillCol_length]

theorem ffillGo_isSome_of_carry (x : ℚ) (l : List (Option ℚ)) :
    ∀ o ∈ ffillGo (some x) l, o.isSome = true := by
  induction l generalizing x with
  | nil => simp [ffillGo]
  | cons a t ih =>
    cases a with
    | none =>
      intro o ho
      rw [ffillGo] at ho
      rcases List.mem_cons.mp ho with h | h
      · rw [h]; rfl
      · exact ih x o h
    | some y =>
      intro o ho
      rw [ffillGo] at ho
      rcases List.mem_cons.mp ho with h | h
      · rw [h]; rfl
      · exact ih y o h

theorem ffillGo_getLast_isSome (carry : Option ℚ) (l : List (Option ℚ))
    (hx : ∃ x, some x ∈ l) :
    ∀ o, (ffillGo carry l).getLast? = some o → o.isSome = true := by
  induction l generalizing carry with
  | nil => obtain ⟨x, hx⟩ := hx; simp at hx
  | cons a t ih =>
    intro o ho
    by_cases ht : ∃ x, some x ∈ t
    · -- a defined sample lies in the tail: the filled tail is nonempty and
      -- its last element is defined by the induction hypothesis
      have htne : ∀ c : Option ℚ, ffillGo c t ≠ [] := by
        intro c hnil
        obtain ⟨x, hxt⟩ := ht
        have hlen : t.length = 0 := by rw [← ffillGo_length c t, hnil]; rfl
        rw [List.length_eq_zero] at hlen
        rw [hlen] at hxt
        simp at hxt
      cases a with
      | none =>
        rw [ffillGo, List.getLast?_cons] at ho
        cases hlast : (ffillGo carry t).getLast? with
        | none => exact absurd (List.getLast?_eq_none_iff.mp hlast) (htne carry)
        | some o2 =>
          rw [hlast] at ho
          injection ho with ho
          rw [← ho]
          simpa using ih carry ht o2 hlast
      | some y =>
        rw [ffillGo, List.getLast?_cons] at ho
        cases hlast : (ffillGo (some y) t).getLast? with
        | none => exact absurd (List.getLast?_eq_none_iff.mp hlast) (htne (some y))
        | some o2 =>
          rw [hlast] at ho
          injection ho with ho
          rw [← ho]
          simpa using ih (some y) ht o2 hlast
    · -- the defined sample is the head itself; the carry is defined from here
      obtain ⟨x, hx⟩ := hx
      rcases List.mem_cons.mp hx with hax | hxt
      · rw [← hax, ffillGo, List.getLast?_cons] at ho
        injection ho with ho
        rw [← ho]
        cases hlast : (ffillGo (some x) t).getLast? with
        | none => simp [hlast]
        | some o2 =>
          simp only [hlast, Option.getD_some]
          exact ffillGo_isSome_of_carry x t o2 (List.mem_of_getLast?_eq_some hlast)
      · exact absurd ⟨x, hxt⟩ ht

theorem edgeFill_isSome (l : List (Option ℚ)) (hx : ∃ x, some x ∈ l) :
    ∀ o ∈ edgeFill l, o.isSome = true := by
  have hrev : ∃ x, some x ∈ l.reverse := by
    obtain ⟨x, h⟩ := hx
    exact ⟨x, List.mem_reverse.mpr h⟩
  rw [edgeFill, ffillCol]
  cases hb : bfillCol l with
  | nil =>
    intro o ho
    simp [ffillGo] at ho
  | cons b rest =>
    have hbs : b.isSome = true := by
      have h1 : (bfillCol l).head? = some b := by rw [hb]; rfl
      rw [bfillCol, List.head?_reverse] at h1
      exact ffillGo_getLast_isSome none l.reverse hrev b h1
    obtain ⟨y, hy⟩ := Option.isSome_iff_exists.mp hbs
    intro o ho
    rw [hy, ffillGo] at ho
    rcases List.mem_cons.mp ho with h | h
    · rw [h]; rfl
    · exact ffillGo_isSome_of_carry y rest o h

theorem getD_mem (l : List (Option ℚ)) (i : Nat) (hi : i < l.length) :
    l.getD i none ∈ l := by
  induction l generalizing i with
  | nil => simp at hi
  | cons a t ih =>
    cases i with
    | zero => simp
    | succ j =>
      simp only [List.getD_cons_succ]
      exact List.mem_cons_of_mem a (ih j (by simpa using hi))

/-! ### Helper lemmas: signal generation and result assembly -/

theorem one_ne_negone_q : (1 : ℚ) ≠ -1 := by norm_num

theorem negone_ne_one_q : (-1 : ℚ) ≠ 1 := by norm_num

theorem generateSignal_isSome_iff (symbol : String) (current previous : IndRow)
    (sr : SRLevels) (ht : TrendDirection) :
    (generateSignal symbol current previous sr ht).isSome = true ↔
      (current.supertrend_direction = some 1 ∧
        previous.supertrend_direction = some (-1) ∧ ht = TrendDirection.BULLISH) ∨
      (current.supertrend_direction = some (-1) ∧
        previous.supertrend_direction = some 1 ∧ ht = TrendDirection.BEARISH) := by
  by_cases h1 : current.supertrend_direction = some 1 ∧
      previous.supertrend_direction = some (-1)
  · have h2 : ¬ (current.supertrend_direction = some (-1)) := by
      rw [h1.1]
      intro h
      injection h with h
      exact one_ne_negone_q h
    cases ht <;>
      simp [generateSignal, h1, h2, h1.1, h1.2, one_ne_negone_q, negone_ne_one_q]
  · by_cases h2 : current.supertrend_direction = some (-1) ∧
        previous.supertrend_direction = some 1
    · have h3 : ¬ (current.supertrend_direction = some 1) := by
        rw [h2.1]
        intro h
        injection h with h
        exact one_ne_negone_q h.symm
      cases ht <;>
        simp [generateSignal, h1, h2, h2.1, h2.2, h3, one_ne_negone_q, negone_ne_one_q]
    · cases ht <;> simp [generateSignal, h1, h2]

theorem generateSignal_cases (symbol : String) (current previous : IndRow)
    (sr : SRLevels) (ht : TrendDirection) (s : TradingSignal)
    (h : generateSignal symbol current previous sr ht = some s) :
    (s.signal_type = SignalType.BUY ∧ current.supertrend_direction = some 1 ∧
      previous.supertrend_direction = some (-1) ∧ ht = TrendDirection.BULLISH) ∨
    (s.signal_type = SignalType.SELL ∧ current.supertrend_direction = some (-1) ∧
      previous.supertrend_direction = some 1 ∧ ht = TrendDirection.BEARISH) := by
  by_cases h1 : current.supertrend_direction = some 1 ∧
      previous.supertrend_direction = some (-1)
  · by_cases hb : ht = TrendDirection.BULLISH
    · left
      refine ⟨?_, h1.1, h1.2, hb⟩
      simp [generateSignal, h1.1, h1.2, hb] at h
      rw [← h]
    · simp [generateSignal, h1.1, h1.2, hb] at h
  · by_cases h2 : current.supertrend_direction = some (-1) ∧
        previous.supertrend_direction = some 1
    · by_cases hbe : ht = TrendDirection.BEARISH
      · right
        refine ⟨?_, h2.1, h2.2, hbe⟩
        simp [generateSignal, h1, h2.1, h2.2, hbe, negone_ne_one_q] at h
        rw [← h]
      · simp [generateSignal, h1, h2.1, h2.2, hbe, negone_ne_one_q] at h
    · simp [generateSignal, h1, h2] at h

theorem generateSignal_buy_fields (symbol : String) (current previous : IndRow)
    (sr : SRLevels) (ht : TrendDirection) (s : TradingSignal) (stv : ℚ)
    (h : generateSignal symbol current previous sr ht = some s)
    (hty : s.signal_type = SignalType.BUY)
    (hst : current.supertrend = some stv) :
    s.entry_price = current.close ∧ s.price = current.close ∧
    s.stop_loss = some stv ∧ s.supertrend_value = some stv ∧
    s.support_level = sr.support ∧ s.resistance_level = sr.resistance ∧
    s.take_profit = some (
      match sr.resistance with
      | some res =>
        if res ≠ 0 ∧ current.close < res
        then min (current.close + |current.close - stv| * 2) res
        else current.close + |current.close - stv| * 2
      | none => current.close + |current.close - stv| * 2) := by
  rcases generateSignal_cases symbol current previous sr ht s h with
    ⟨_, hc, hp, hb⟩ | ⟨hsell, _, _, _⟩
  · rw [generateSignal] at h
    simp only [hc, hp, hb, hst, and_self, if_pos, if_true, ite_true] at h
    injection h with h
    subst h
    refine ⟨rfl, rfl, rfl, rfl, rfl, rfl, ?_⟩
    cases hr : sr.resistance with
    | none => rfl
    | some res =>
      by_cases hcond : res ≠ 0 ∧ current.close < res
      · simp [hcond]
      · simp [hcond]
  · rw [hsell] at hty
    exact absurd hty (by simp)

theorem generateSignal_sell_fields (symbol : String) (current previous : IndRow)
    (sr : SRLevels) (ht : TrendDirection) (s : TradingSignal) (stv : ℚ)
    (h : generateSignal symbol current previous sr ht = some s)
    (hty : s.signal_type = SignalType.SELL)
    (hst : current.supertrend = some stv) :
    s.entry_price = current.close ∧ s.price = current.close ∧
    s.stop_loss = some stv ∧ s.supertrend_value = some stv ∧
    s.support_level = sr.support ∧ s.resistance_level = sr.resistance ∧
    s.take_profit = some (
      match sr.support with
      | some sup =>
        if sup ≠ 0 ∧ sup < current.close
        then max (current.close - |current.close - stv| * 2) sup
        else current.close - |current.close - stv| * 2
      | none => current.close - |current.close - stv| * 2) := by
  rcases generateSignal_cases symbol current previous sr ht s h with
    ⟨hbuy, _, _, _⟩ | ⟨_, hc, hp, hb⟩
  · rw [hbuy] at hty
    exact absurd hty (by simp)
  · have hc1 : ¬ (current.supertrend_direction = some 1) := by
      rw [hc]
      intro hx
      injection hx with hx
      exact negone_ne_one_q hx
    rw [generateSignal] at h
    rw [if_neg (fun hx => hc1 hx.1)] at h
    simp only [hc, hp, hb, hst, and_self, if_pos, if_true, ite_true] at h
    injection h with h
    subst h
    refine ⟨rfl, rfl, rfl, rfl, rfl, rfl, ?_⟩
    cases hr : sr.support with
    | none => rfl
    | some sup =>
      by_cases hcond : sup ≠ 0 ∧ sup < current.close
      · simp [hcond]
      · simp [hcond]

theorem analyzeFrom_ok (symbol : String) (pm : List MarketData) (hlast : IndRow)
    (dfP : List IndRow) (t0 t1 t2 : Int) (res : AnalysisResult)
    (h : analyzeFrom symbol pm hlast dfP t0 t1 t2 = Except.ok res) :
    ∃ sr latest previous mlast,
      dynamicSR dfP = some sr ∧ dfP.getLast? = some latest ∧
      secondLast? dfP = some previous ∧ pm.getLast? = some mlast ∧
      res = { symbol := symbol
              timeframe := "1h/4h"
              timestamp := t1
              market_data := mlast
              indicator_data :=
                { symbol := symbol
                  timestamp := latest.timestamp
                  supertrend := latest.supertrend
                  trend_direction := trendOfVal latest.supertrend_direction
                  support_level := sr.support
                  resistance_level := sr.resistance
                  rsi := latest.rsi
                  macd_line := latest.macd_line
                  macd_signal := latest.macd_signal }
              signal := generateSignal symbol latest previous sr
                  (trendOfVal hlast.supertrend_direction)
              higher_tf_trend := trendOfVal hlast.supertrend_direction
              analysis_duration_ms := ((t2 - t0 : Int) : ℚ) * 1000 } := by
  rw [analyzeFrom] at h
  cases hsr : dynamicSR dfP with
  | none => rw [hsr] at h; exact absurd h (by simp)
  | some sr =>
    rw [hsr] at h
    cases hl : dfP.getLast? with
    | none => rw [hl] at h; exact absurd h (by simp)
    | some latest =>
      rw [hl] at h
      cases hp : secondLast? dfP with
      | none => rw [hp] at h; exact absurd h (by simp)
      | some previous =>
        rw [hp] at h
        cases hm : pm.getLast? with
        | none => rw [hm] at h; exact absurd h (by simp)
        | some mlast =>
          rw [hm] at h
          injection h with h
          exact ⟨sr, latest, previous, mlast, rfl, rfl, rfl, rfl, h.symm⟩

theorem generateSignal_trend (symbol : String) (current previous : IndRow)
    (sr : SRLevels) (ht : TrendDirection) (s : TradingSignal)
    (h : generateSignal symbol current previous sr ht = some s) :
    s.trend_direction = trendOfVal current.supertrend_direction := by
  rcases generateSignal_cases symbol current previous sr ht s h with
    ⟨_, hc, hp, hb⟩ | ⟨_, hc, hp, hb⟩
  · rw [generateSignal] at h
    simp only [hc, hp, hb, and_self, if_pos, if_true, ite_true] at h
    injection h with h
    rw [← h, hc]
  · have hc1 : ¬ (current.supertrend_direction = some 1) := by
      rw [hc]
      intro hx
      injection hx with hx
      exact negone_ne_one_q hx
    rw [generateSignal] at h
    rw [if_neg (fun hx => hc1 hx.1)] at h
    simp only [hc, hp, hb, and_self, if_pos, if_true, ite_true] at h
    injection h with h
    rw [← h, hc]

/-- C10: the trend directions the analysis emits are never `NEUTRAL`.  The
shared mapping `trendOfVal` (lines 107, 172, 192) yields `BULLISH` exactly
when the envelope direction value equals 1 and `BEARISH` on every other value
(including −1, 0 and an undefined `NaN` direction); consequently every
assembled `AnalysisResult` carries a non-`NEUTRAL` higher-timeframe trend and
indicator trend, and any attached signal a non-`NEUTRAL` primary trend, even
though the `TrendDirection` enum defines a `NEUTRAL` member. -/
theorem C10_trend_never_neutral (v : Option ℚ) (symbol : String)
    (pm : List MarketData) (hlast : IndRow) (dfP : List IndRow)
    (t0 t1 t2 : Int) (res : AnalysisResult)
    (h : analyzeFrom symbol pm hlast dfP t0 t1 t2 = Except.ok res) :
    (trendOfVal v ≠ TrendDirection.NEUTRAL ∧
      (trendOfVal v = TrendDirection.BULLISH ↔ v = some 1) ∧
      (trendOfVal v = TrendDirection.BEARISH ↔ v ≠ some 1)) ∧
    res.higher_tf_trend ≠ TrendDirection.NEUTRAL ∧
    res.indicator_data.trend_direction ≠ TrendDirection.NEUTRAL ∧
    (∀ s, res.signal = some s → s.trend_direction ≠ TrendDirection.NEUTRAL) := by
  obtain ⟨sr, latest, previous, mlast, hsr, hl, hp, hm, hres⟩ :=
    analyzeFrom_ok symbol pm hlast dfP t0 t1 t2 res h
  subst hres
  have hto : ∀ w : Option ℚ, trendOfVal w ≠ TrendDirection.NEUTRAL := by
    intro w
    rw [trendOfVal]
    by_cases hw : w = some 1 <;> simp [hw]
  refine ⟨⟨hto v, ?_, ?_⟩, hto _, hto _, ?_⟩
  · rw [trendOfVal]
    by_cases hw : v = some 1 <;> simp [hw]
  · rw [trendOfVal]
    by_cases hw : v = some 1 <;> simp [hw]
  · intro s hs
    have := generateSignal_trend symbol latest previous sr
      (trendOfVal hlast.supertrend_direction) s hs
    rw [this]
    exact hto _

/-- C1: for every successfully assembled analysis result, a `TradingSignal`
is attached iff the envelope direction flipped across the last two primary
rows (previous −1 and current +1, or previous +1 and current −1) and the
higher-timeframe trend (the direction of the last higher-timeframe row)
matches the flip (`BULLISH` for BUY, `BEARISH` for SELL); in every other
case `signal` is `None` — no placeholder (`HOLD`) signal object exists. -/
theorem C1_signal_iff_crossover_and_gate (symbol : String)
    (pm : List MarketData) (hlast latest previous : IndRow) (dfP : List IndRow)
    (t0 t1 t2 : Int) (res : AnalysisResult)
    (h : analyzeFrom symbol pm hlast dfP t0 t1 t2 = Except.ok res)
    (hl : dfP.getLast? = some latest) (hp : secondLast? dfP = some previous) :
    (res.signal ≠ none ↔
      (latest.supertrend_direction = some 1 ∧
        previous.supertrend_direction = some (-1) ∧
        trendOfVal hlast.supertrend_direction = TrendDirection.BULLISH) ∨
      (latest.supertrend_direction = some (-1) ∧
        previous.supertrend_direction = some 1 ∧
        trendOfVal hlast.supertrend_direction = TrendDirection.BEARISH)) ∧
    (∀ s, res.signal = some s →
      ((s.signal_type = SignalType.BUY ∧ latest.supertrend_direction = some 1 ∧
          previous.supertrend_direction = some (-1) ∧
          trendOfVal hlast.supertrend_direction = TrendDirection.BULLISH) ∨
        (s.signal_type = SignalType.SELL ∧
          latest.supertrend_direction = some (-1) ∧
          previous.supertrend_direction = some 1 ∧
          trendOfVal hlast.supertrend_direction = TrendDirection.BEARISH)) ∧
      s.signal_type ≠ SignalType.HOLD) := by
  obtain ⟨sr, latest2, previous2, mlast, hsr, hl2, hp2, hm, hres⟩ :=
    analyzeFrom_ok symbol pm hlast dfP t0 t1 t2 res h
  rw [hl] at hl2
  injection hl2 with hl2
  rw [hp] at hp2
  injection hp2 with hp2
  subst hl2
  subst hp2
  subst hres
  constructor
  · rw [Option.ne_none_iff_isSome]
    rw [show (Option.isSome (generateSignal symbol latest previous sr
        (trendOfVal hlast.supertrend_direction)) = true) =
        ((generateSignal symbol latest previous sr
          (trendOfVal hlast.supertrend_direction)).isSome = true) from rfl]
    exact generateSignal_isSome_iff symbol latest previous sr _
  · intro s hs
    have hcases := generateSignal_cases symbol latest previous sr
      (trendOfVal hlast.supertrend_direction) s hs
    constructor
    · exact hcases
    · rcases hcases with ⟨hty, _⟩ | ⟨hty, _⟩ <;> rw [hty] <;> simp

/-- Witness for C1 at the concrete sample inputs: the frame `dfPS` has a
bearish-to-bullish flip on its last two rows and the higher-timeframe trend
is bullish, so the iff instantiates with an attached BUY signal. -/
theorem C1_witness :
    (resS.signal ≠ none ↔
      (rowCurS.supertrend_direction = some 1 ∧
        rowPrevS.supertrend_direction = some (-1) ∧
        trendOfVal rowHigherS.supertrend_direction = TrendDirection.BULLISH) ∨
      (rowCurS.supertrend_direction = some (-1) ∧
        rowPrevS.supertrend_direction = some 1 ∧
        trendOfVal rowHigherS.supertrend_direction = TrendDirection.BEARISH)) ∧
    (∀ s, resS.signal = some s →
      ((s.signal_type = SignalType.BUY ∧
          rowCurS.supertrend_direction = some 1 ∧
          rowPrevS.supertrend_direction = some (-1) ∧
          trendOfVal rowHigherS.supertrend_direction = TrendDirection.BULLISH) ∨
        (s.signal_type = SignalType.SELL ∧
          rowCurS.supertrend_direction = some (-1) ∧
          rowPrevS.supertrend_direction = some 1 ∧
          trendOfVal rowHigherS.supertrend_direction = TrendDirection.BEARISH)) ∧
      s.signal_type ≠ SignalType.HOLD) :=
  C1_signal_iff_crossover_and_gate "BTC/USDT" pmS rowHigherS rowCurS rowPrevS
    dfPS 0 0 0 resS
    (by norm_num [analyzeFrom, dynamicSR, generateSignal, trendOfVal, listTail,
      listMin?, listMax?, secondLast?, dfPS, rowCurS, rowPrevS, rowHigherS, pmS,
      mkRow, mkBar, resS, sigS, List.filterMap, List.dedup])
    (by decide) (by decide)

/-- Witness for C10 at the concrete sample inputs, with the direction value 0
(which maps to `BEARISH`, not `NEUTRAL`). -/
theorem C10_witness :
    (trendOfVal (some 0) ≠ TrendDirection.NEUTRAL ∧
      (trendOfVal (some 0) = TrendDirection.BULLISH ↔ (some 0 : Option ℚ) = some 1) ∧
      (trendOfVal (some 0) = TrendDirection.BEARISH ↔ (some 0 : Option ℚ) ≠ some 1)) ∧
    resS.higher_tf_trend ≠ TrendDirection.NEUTRAL ∧
    resS.indicator_data.trend_direction ≠ TrendDirection.NEUTRAL ∧
    (∀ s, resS.signal = some s → s.trend_direction ≠ TrendDirection.NEUTRAL) :=
  C10_trend_never_neutral (some 0) "BTC/USDT" pmS rowHigherS dfPS 0 0 0 resS
    (by norm_num [analyzeFrom, dynamicSR, generateSignal, trendOfVal, listTail,
      listMin?, listMax?, secondLast?, dfPS, rowCurS, rowPrevS, rowHigherS, pmS,
      mkRow, mkBar, resS, sigS, List.filterMap, List.dedup])

/-- C4: for every confirmed signal (with a defined envelope value at the
trigger bar and positive prices, as the data model guarantees): the entry
price is the trigger close, the stop-loss is the envelope value, and with
risk = |close − stop|: a BUY take-profit is min(close + 2·risk, resistance)
when a resistance exists above the close and close + 2·risk otherwise — so it
never exceeds the raw 2:1 target and equals the resistance exactly whenever
one exists between the close and the raw target; symmetrically for a SELL
with the support. -/
theorem C4_risk_levels (symbol : String) (current previous : IndRow)
    (sr : SRLevels) (ht : TrendDirection) (s : TradingSignal) (stv : ℚ)
    (h : generateSignal symbol current previous sr ht = some s)
    (hst : current.supertrend = some stv)
    (hpos : 0 < current.close)
    (hsup : ∀ v, sr.support = some v → 0 < v) :
    s.entry_price = current.close ∧
    s.stop_loss = some stv ∧
    (s.signal_type = SignalType.BUY →
      s.take_profit = some (match sr.resistance with
        | some res =>
          if current.close < res
          then min (current.close + |current.close - stv| * 2) res
          else current.close + |current.close - stv| * 2
        | none => current.close + |current.close - stv| * 2) ∧
      (∀ tp, s.take_profit = some tp →
        tp ≤ current.close + |current.close - stv| * 2) ∧
      (∀ res, sr.resistance = some res → current.close < res →
        res ≤ current.close + |current.close - stv| * 2 →
        s.take_profit = some res)) ∧
    (s.signal_type = SignalType.SELL →
      s.take_profit = some (match sr.support with
        | some sup =>
          if sup < current.close
          then max (current.close - |current.close - stv| * 2) sup
          else current.close - |current.close - stv| * 2
        | none => current.close - |current.close - stv| * 2) ∧
      (∀ tp, s.take_profit = some tp →
        current.close - |current.close - stv| * 2 ≤ tp) ∧
      (∀ sup, sr.support = some sup → sup < current.close →
        current.close - |current.close - stv| * 2 ≤ sup →
        s.take_profit = some sup)) := by
  rcases generateSignal_cases symbol current previous sr ht s h with
    ⟨hty, _, _, _⟩ | ⟨hty, _, _, _⟩
  · obtain ⟨he, hpr, hsl, hsv, hsupf, hresf, htp⟩ :=
      generateSignal_buy_fields symbol current previous sr ht s stv h hty hst
    refine ⟨he, hsl, ?_, ?_⟩
    · intro _
      refine ⟨?_, ?_, ?_⟩
      · rw [htp]
        congr 1
        cases hr : sr.resistance with
        | none => rfl
        | some res =>
          show (if res ≠ 0 ∧ current.close < res
              then min (current.close + |current.close - stv| * 2) res
              else current.close + |current.close - stv| * 2) =
            (if current.close < res
              then min (current.close + |current.close - stv| * 2) res
              else current.close + |current.close - stv| * 2)
          by_cases h2 : current.close < res
          · rw [if_pos (And.intro (lt_trans hpos h2).ne' h2), if_pos h2]
          · rw [if_neg (fun hx => h2 hx.2), if_neg h2]
      · intro tp htp2
        rw [htp] at htp2
        injection htp2 with htp2
        rw [← htp2]
        cases hr : sr.resistance with
        | none => exact le_refl _
        | some res =>
          show (if res ≠ 0 ∧ current.close < res
              then min (current.close + |current.close - stv| * 2) res
              else current.close + |current.close - stv| * 2) ≤
            current.close + |current.close - stv| * 2
          by_cases h2 : res ≠ 0 ∧ current.close < res
          · rw [if_pos h2]
            exact min_le_left _ _
          · rw [if_neg h2]
      · intro res hr h2 h3
        rw [hr] at htp
        rw [htp]
        congr 1
        show (if res ≠ 0 ∧ current.close < res
            then min (current.close + |current.close - stv| * 2) res
            else current.close + |current.close - stv| * 2) = res
        rw [if_pos (And.intro (lt_trans hpos h2).ne' h2)]
        exact min_eq_right h3
    · intro hty2
      rw [hty] at hty2
      exact absurd hty2 (by simp)
  · obtain ⟨he, hpr, hsl, hsv, hsupf, hresf, htp⟩ :=
      generateSignal_sell_fields symbol current previous sr ht s stv h hty hst
    refine ⟨he, hsl, ?_, ?_⟩
    · intro hty2
      rw [hty] at hty2
      exact absurd hty2 (by simp)
    · intro _
      refine ⟨?_, ?_, ?_⟩
      · rw [htp]
        congr 1
        cases hr : sr.support with
        | none => rfl
        | some sup =>
          show (if sup ≠ 0 ∧ sup < current.close
              then max (current.close - |current.close - stv| * 2) sup
              else current.close - |current.close - stv| * 2) =
            (if sup < current.close
              then max (current.close - |current.close - stv| * 2) sup
              else current.close - |current.close - stv| * 2)
          by_cases h2 : sup < current.close
          · rw [if_pos (And.intro (hsup sup hr).ne' h2), if_pos h2]
          · rw [if_neg (fun hx => h2 hx.2), if_neg h2]
      · intro tp htp2
        rw [htp] at htp2
        injection htp2 with htp2
        rw [← htp2]
        cases hr : sr.support with
        | none => exact le_refl _
        | some sup =>
          show current.close - |current.close - stv| * 2 ≤
            (if sup ≠ 0 ∧ sup < current.close
              then max (current.close - |current.close - stv| * 2) sup
              else current.close - |current.close - stv| * 2)
          by_cases h2 : sup ≠ 0 ∧ sup < current.close
          · rw [if_pos h2]
            exact le_max_left _ _
          · rw [if_neg h2]
      · intro sup hr h2 h3
        rw [hr] at htp
        rw [htp]
        congr 1
        show (if sup ≠ 0 ∧ sup < current.close
            then max (current.close - |current.close - stv| * 2) sup
            else current.close - |current.close - stv| * 2) = sup
        rw [if_pos (And.intro (hsup sup hr).ne' h2)]
        exact max_eq_right h3

/-- Witness for C4 at the concrete sample signal: a BUY at close 10 with
envelope (stop) 8, risk 2, raw target 14 and resistance 12, so the
take-profit is capped at exactly 12. -/
theorem C4_witness :
    sigS.entry_price = rowCurS.close ∧
    sigS.stop_loss = some 8 ∧
    (sigS.signal_type = SignalType.BUY →
      sigS.take_profit = some (match srS.resistance with
        | some res =>
          if rowCurS.close < res
          then min (rowCurS.close + |rowCurS.close - 8| * 2) res
          else rowCurS.close + |rowCurS.close - 8| * 2
        | none => rowCurS.close + |rowCurS.close - 8| * 2) ∧
      (∀ tp, sigS.take_profit = some tp →
        tp ≤ rowCurS.close + |rowCurS.close - 8| * 2) ∧
      (∀ res, srS.resistance = some res → rowCurS.close < res →
        res ≤ rowCurS.close + |rowCurS.close - 8| * 2 →
        sigS.take_profit = some res)) ∧
    (sigS.signal_type = SignalType.SELL →
      sigS.take_profit = some (match srS.support with
        | some sup =>
          if sup < rowCurS.close
          then max (rowCurS.close - |rowCurS.close - 8| * 2) sup
          else rowCurS.close - |rowCurS.close - 8| * 2
        | none => rowCurS.close - |rowCurS.close - 8| * 2) ∧
      (∀ tp, sigS.take_profit = some tp →
        rowCurS.close - |rowCurS.close - 8| * 2 ≤ tp) ∧
      (∀ sup, srS.support = some sup → sup < rowCurS.close →
        rowCurS.close - |rowCurS.close - 8| * 2 ≤ sup →
        sigS.take_profit = some sup)) :=
  C4_risk_levels "BTC/USDT" rowCurS rowPrevS srS TrendDirection.BULLISH sigS 8
    (by norm_num [generateSignal, trendOfVal, srS, rowCurS, rowPrevS, mkRow, sigS])
    (by rfl)
    (by norm_num [rowCurS, mkRow])
    (by intro v hv; simp [srS] at hv; norm_num [← hv])

/-- C5: over the distinct defined pivot-high / pivot-low values of the most
recent 100 primary rows (all rows if fewer), the computed resistance is the
smallest pivot-high strictly greater than the last close (`none` when no such
value exists) and the support the largest pivot-low strictly less than it
(`none` likewise); consequently support < close < resistance whenever the
respective level is present. -/
theorem C5_support_resistance (df : List IndRow) (sr : SRLevels) (last : IndRow)
    (h : dynamicSR df = some sr) (hl : df.getLast? = some last) :
    (∀ r, sr.resistance = some r →
      r ∈ ((listTail 100 df).filterMap IndRow.pivot_high).dedup ∧
      last.close < r ∧
      (∀ p ∈ ((listTail 100 df).filterMap IndRow.pivot_high).dedup,
        last.close < p → r ≤ p)) ∧
    (sr.resistance = none →
      ∀ p ∈ ((listTail 100 df).filterMap IndRow.pivot_high).dedup,
        ¬ last.close < p) ∧
    (∀ v, sr.support = some v →
      v ∈ ((listTail 100 df).filterMap IndRow.pivot_low).dedup ∧
      v < last.close ∧
      (∀ p ∈ ((listTail 100 df).filterMap IndRow.pivot_low).dedup,
        p < last.close → p ≤ v)) ∧
    (sr.support = none →
      ∀ p ∈ ((listTail 100 df).filterMap IndRow.pivot_low).dedup,
        ¬ p < last.close) := by
  rw [dynamicSR, hl] at h
  injection h with h
  subst h
  refine ⟨?_, ?_, ?_, ?_⟩
  · intro r hr
    have hmem := listMin?_mem _ r hr
    have hle := listMin?_le _ r hr
    rw [List.mem_filter] at hmem
    refine ⟨hmem.1, of_decide_eq_true hmem.2, ?_⟩
    intro p hp hcp
    exact hle p (List.mem_filter.mpr ⟨hp, decide_eq_true hcp⟩)
  · intro hr p hp hcp
    rw [listMin?_eq_none] at hr
    have : p ∈ ([] : List ℚ) := by
      rw [← hr]
      exact List.mem_filter.mpr ⟨hp, decide_eq_true hcp⟩
    simp at this
  · intro v hv
    have hmem := listMax?_mem _ v hv
    have hge := listMax?_ge _ v hv
    rw [List.mem_filter] at hmem
    refine ⟨hmem.1, of_decide_eq_true hmem.2, ?_⟩
    intro p hp hcp
    exact hge p (List.mem_filter.mpr ⟨hp, decide_eq_true hcp⟩)
  · intro hv p hp hcp
    rw [listMax?_eq_none] at hv
    have : p ∈ ([] : List ℚ) := by
      rw [← hv]
      exact List.mem_filter.mpr ⟨hp, decide_eq_true hcp⟩
    simp at this

/-- Witness for C5 at the concrete sample frame: pivots give resistance 12
and support 5 around the close 10. -/
theorem C5_witness :
    (∀ r, srS.resistance = some r →
      r ∈ ((listTail 100 dfPS).filterMap IndRow.pivot_high).dedup ∧
      rowCurS.close < r ∧
      (∀ p ∈ ((listTail 100 dfPS).filterMap IndRow.pivot_high).dedup,
        rowCurS.close < p → r ≤ p)) ∧
    (srS.resistance = none →
      ∀ p ∈ ((listTail 100 dfPS).filterMap IndRow.pivot_high).dedup,
        ¬ rowCurS.close < p) ∧
    (∀ v, srS.support = some v →
      v ∈ ((listTail 100 dfPS).filterMap IndRow.pivot_low).dedup ∧
      v < rowCurS.close ∧
      (∀ p ∈ ((listTail 100 dfPS).filterMap IndRow.pivot_low).dedup,
        p < rowCurS.close → p ≤ v)) ∧
    (srS.support = none →
      ∀ p ∈ ((listTail 100 dfPS).filterMap IndRow.pivot_low).dedup,
        ¬ p < rowCurS.close) :=
  C5_support_resistance dfPS srS rowCurS
    (by norm_num [dynamicSR, listTail, listMin?, listMax?, dfPS, rowCurS,
      rowPrevS, mkRow, srS, List.filterMap, List.dedup])
    (by decide)

theorem analyzeBody_ok (pivotR : Nat) (mult : ℚ) (symbol : String)
    (p hgh : List MarketData) (t0 t1 t2 : Int) (r : AnalysisResult)
    (hb : analyzeBody pivotR mult symbol p hgh t0 t1 t2 = Except.ok r) :
    ∃ dfH hlast dfP,
      calcIndicators pivotR mult hgh = Except.ok dfH ∧
      dfH.getLast? = some hlast ∧
      calcIndicators pivotR mult p = Except.ok dfP ∧
      analyzeFrom symbol p hlast dfP t0 t1 t2 = Except.ok r := by
  rw [analyzeBody] at hb
  split at hb
  next e => exact absurd hb (by simp)
  next dfH hch =>
    split at hb
    next hgl => exact absurd hb (by simp)
    next hlast hgl =>
      split at hb
      next e hcp => exact absurd hb (by simp)
      next dfP hcp => exact ⟨dfH, hlast, dfP, hch, hgl, hcp, hb⟩

set_option maxRecDepth 10000 in
/-- C7 counterexample: the claim of bit-identical results over every field is
false — two runs of `analyze_market` on the identical constant 26-bar series
and identical parameters, taken at different wall-clock readings, produce
different `AnalysisResult`s (the `timestamp` and `analysis_duration_ms`
fields come from `pd.Timestamp.now()`). -/
theorem C7_counterexample :
    analyze_market 6 3 "X" constBars constBars 0 0 0 ≠
      analyze_market 6 3 "X" constBars constBars 0 1 2 ∧
    analyze_market 6 3 "X" constBars constBars 0 0 0 = some (resConst 0 0) ∧
    analyze_market 6 3 "X" constBars constBars 0 1 2 = some (resConst 1 2000) := by
  refine ⟨?_, ?_, ?_⟩ <;> with_unfolding_all decide

/-- C7 (amended): the analysis is deterministic up to the wall clock — any
two successful runs of `analyze_market` on identical input series and
identical parameters agree on every field of the `AnalysisResult` except
`timestamp` and `analysis_duration_ms`, which are exactly the clock readings
(`timestamp` = the second reading; duration = (third − first) × 1000). -/
theorem C7_deterministic_up_to_clock (pivotR : Nat) (mult : ℚ) (symbol : String)
    (primary higher : List MarketData) (t0 t1 t2 t0' t1' t2' : Int)
    (r r' : AnalysisResult)
    (hr : analyze_market pivotR mult symbol primary higher t0 t1 t2 = some r)
    (hr' : analyze_market pivotR mult symbol primary higher t0' t1' t2' = some r') :
    r.symbol = r'.symbol ∧ r.timeframe = r'.timeframe ∧
    r.market_data = r'.market_data ∧ r.indicator_data = r'.indicator_data ∧
    r.signal = r'.signal ∧ r.higher_tf_trend = r'.higher_tf_trend ∧
    r.timestamp = t1 ∧ r'.timestamp = t1' ∧
    r.analysis_duration_ms = ((t2 - t0 : Int) : ℚ) * 1000 ∧
    r'.analysis_duration_ms = ((t2' - t0' : Int) : ℚ) * 1000 := by
  rw [analyze_market] at hr hr'
  cases hb : analyzeBody pivotR mult symbol primary higher t0 t1 t2 with
  | error e => rw [hb] at hr; exact absurd hr (by simp)
  | ok rb =>
    rw [hb] at hr
    injection hr with hr
    cases hb' : analyzeBody pivotR mult symbol primary higher t0' t1' t2' with
    | error e => rw [hb'] at hr'; exact absurd hr' (by simp)
    | ok rb' =>
      rw [hb'] at hr'
      injection hr' with hr'
      subst hr
      subst hr'
      obtain ⟨dfH, hlast, dfP, hch, hgl, hcp, haf⟩ :=
        analyzeBody_ok pivotR mult symbol primary higher t0 t1 t2 rb hb
      obtain ⟨dfH', hlast', dfP', hch', hgl', hcp', haf'⟩ :=
        analyzeBody_ok pivotR mult symbol primary higher t0' t1' t2' rb' hb'
      rw [hch] at hch'
      injection hch' with hch'
      subst hch'
      rw [hgl] at hgl'
      injection hgl' with hgl'
      subst hgl'
      rw [hcp] at hcp'
      injection hcp' with hcp'
      subst hcp'
      obtain ⟨sr, latest, previous, mlast, hsr, hl, hp, hm, hres⟩ :=
        analyzeFrom_ok symbol primary hlast dfP t0 t1 t2 rb haf
      obtain ⟨sr', latest', previous', mlast', hsr', hl', hp', hm', hres'⟩ :=
        analyzeFrom_ok symbol primary hlast dfP t0' t1' t2' rb' haf'
      rw [hsr] at hsr'
      injection hsr' with hsr'
      subst hsr'
      rw [hl] at hl'
      injection hl' with hl'
      subst hl'
      rw [hp] at hp'
      injection hp' with hp'
      subst hp'
      rw [hm] at hm'
      injection hm' with hm'
      subst hm'
      subst hres
      subst hres'
      exact ⟨rfl, rfl, rfl, rfl, rfl, rfl, rfl, rfl, rfl, rfl⟩

set_option maxRecDepth 10000 in
/-- Witness for the amended C7 at the constant 26-bar series, run once with
clock readings (0,0,0) and once with (0,1,2). -/
theorem C7_witness :
    (resConst 0 0).symbol = (resConst 1 2000).symbol ∧
    (resConst 0 0).timeframe = (resConst 1 2000).timeframe ∧
    (resConst 0 0).market_data = (resConst 1 2000).market_data ∧
    (resConst 0 0).indicator_data = (resConst 1 2000).indicator_data ∧
    (resConst 0 0).signal = (resConst 1 2000).signal ∧
    (resConst 0 0).higher_tf_trend = (resConst 1 2000).higher_tf_trend ∧
    (resConst 0 0).timestamp = 0 ∧ (resConst 1 2000).timestamp = 1 ∧
    (resConst 0 0).analysis_duration_ms = ((0 - 0 : Int) : ℚ) * 1000 ∧
    (resConst 1 2000).analysis_duration_ms = ((2 - 0 : Int) : ℚ) * 1000 :=
  C7_deterministic_up_to_clock 6 3 "X" constBars constBars 0 0 0 0 1 2
    (resConst 0 0) (resConst 1 2000)
    (by with_unfolding_all decide) (by with_unfolding_all decide)

theorem insertByTs_length (b : MarketData) (l : List MarketData) :
    (insertByTs b l).length = l.length + 1 := by
  induction l with
  | nil => rfl
  | cons c cs ih =>
    rw [insertByTs]
    by_cases hc : c.timestamp < b.timestamp
    · rw [if_pos hc]
      simp [ih]
    · rw [if_neg hc]
      simp

theorem marketDataToDf_length (l : List MarketData) :
    (marketDataToDf l).length = l.length := by
  induction l with
  | nil => rfl
  | cons b bs ih =>
    rw [marketDataToDf, List.foldr, insertByTs_length]
    rw [marketDataToDf] at ih
    rw [ih, List.length_cons]

theorem analyze_market_none_of_calc_error (pivotR : Nat) (mult : ℚ)
    (symbol : String) (primary higher : List MarketData) (t0 t1 t2 : Int)
    (e : PyErr)
    (h : calcIndicators pivotR mult higher = Except.error e ∨
         calcIndicators pivotR mult primary = Except.error e) :
    analyze_market pivotR mult symbol primary higher t0 t1 t2 = none := by
  cases hm : analyze_market pivotR mult symbol primary higher t0 t1 t2 with
  | none => rfl
  | some r =>
    exfalso
    rw [analyze_market] at hm
    cases hb : analyzeBody pivotR mult symbol primary higher t0 t1 t2 with
    | error e2 => rw [hb] at hm; exact absurd hm (by simp)
    | ok rb =>
      obtain ⟨dfH, hlast, dfP, hch, hgl, hcp, haf⟩ :=
        analyzeBody_ok pivotR mult symbol primary higher t0 t1 t2 rb hb
      rcases h with h | h
      · rw [h] at hch
        exact absurd hch (by simp)
      · rw [h] at hcp
        exact absurd hcp (by simp)

/-- C2 counterexample: at a two-bar higher-timeframe series the Indicator
Engine invocation raises (the `try`-body of `analyze_market` is an error),
yet `analyze_market` swallows the exception in its `except` clause (lines
200-202) and returns `None` — nothing is reported upward to the caller. -/
theorem C2_counterexample :
    analyzeBody 6 3 "X" constBars twoBars 0 0 0 =
      Except.error (PyErr.typeError "macd") ∧
    analyze_market 6 3 "X" constBars twoBars 0 0 0 = none := by
  exact ⟨by with_unfolding_all rfl, by with_unfolding_all rfl⟩

/-- C2 (amended): when either Indicator Engine invocation raises, the
`except Exception` clause at lines 200-202 catches the exception and
`analyze_market` returns `None`: no exception propagates to the caller, and
no partial `AnalysisResult` is returned. -/
theorem C2_exception_swallowed (pivotR : Nat) (mult : ℚ) (symbol : String)
    (primary higher : List MarketData) (t0 t1 t2 : Int) (e : PyErr)
    (h : calcIndicators pivotR mult higher = Except.error e ∨
         calcIndicators pivotR mult primary = Except.error e) :
    analyze_market pivotR mult symbol primary higher t0 t1 t2 = none :=
  analyze_market_none_of_calc_error pivotR mult symbol primary higher t0 t1 t2 e h

/-- Witness for the amended C2: a two-bar higher series makes the higher
Indicator Engine invocation raise, and the analysis call returns `None`. -/
theorem C2_witness :
    analyze_market 6 3 "BTC/USDT" constBars twoBars 1 2 3 = none :=
  C2_exception_swallowed 6 3 "BTC/USDT" constBars twoBars 1 2 3
    (PyErr.typeError "macd") (Or.inl (by with_unfolding_all rfl))

/-- C3 counterexample: on the series of exactly 2 bars the indicator
computation fails, but with a generic `TypeError` (the convergence call
returns no frame and subscripting it raises), not with an
`InsufficientDataError` — no such exception type exists anywhere in the
repository, and `_calculate_indicators` performs no length validation. -/
theorem C3_counterexample :
    calcIndicators 6 3 twoBars = Except.error (PyErr.typeError "macd") ∧
    PyErr.typeError "macd" ≠ PyErr.insufficientData := by
  exact ⟨by with_unfolding_all rfl, by decide⟩

/-- C3 (amended): for every series shorter than the slow convergence lookback
of 26 bars — in particular a 2-bar series — the indicator computation raises
a generic untyped exception (`TypeError`), never an error of the spec's
`InsufficientDataError` type (which the repository does not define), and the
surrounding `analyze_market` call catches it and returns `None` whether the
short series is the higher or the primary one. -/
theorem C3_short_series_generic_error (pivotR : Nat) (mult : ℚ)
    (bars : List MarketData) (h : bars.length < 26) :
    (∃ site, calcIndicators pivotR mult bars =
      Except.error (PyErr.typeError site)) ∧
    (∀ e, calcIndicators pivotR mult bars = Except.error e →
      e ≠ PyErr.insufficientData) ∧
    (∀ symbol (other : List MarketData) (t0 t1 t2 : Int),
      analyze_market pivotR mult symbol other bars t0 t1 t2 = none ∧
      analyze_market pivotR mult symbol bars other t0 t1 t2 = none) := by
  have hlen : (marketDataToDf bars).length < 26 := by
    rw [marketDataToDf_length]
    exact h
  have hcalc : ∃ site, calcIndicators pivotR mult bars =
      Except.error (PyErr.typeError site) := by
    rw [calcIndicators]
    by_cases h0 : (marketDataToDf bars).length = 0
    · exact ⟨"supertrend", by rw [if_pos h0]⟩
    · exact ⟨"macd", by rw [if_neg h0, if_pos hlen]⟩
  refine ⟨hcalc, ?_, ?_⟩
  · intro e he
    obtain ⟨site, hsite⟩ := hcalc
    rw [hsite] at he
    injection he with he
    rw [← he]
    simp
  · intro symbol other t0 t1 t2
    obtain ⟨site, hsite⟩ := hcalc
    constructor
    · exact analyze_market_none_of_calc_error pivotR mult symbol other bars
        t0 t1 t2 (PyErr.typeError site) (Or.inl hsite)
    · exact analyze_market_none_of_calc_error pivotR mult symbol bars other
        t0 t1 t2 (PyErr.typeError site) (Or.inr hsite)

/-- Witness for the amended C3 at the two-bar series. -/
theorem C3_witness :
    (∃ site, calcIndicators 6 3 twoBars =
      Except.error (PyErr.typeError site)) ∧
    (∀ e, calcIndicators 6 3 twoBars = Except.error e →
      e ≠ PyErr.insufficientData) ∧
    (∀ symbol (other : List MarketData) (t0 t1 t2 : Int),
      analyze_market 6 3 symbol other twoBars t0 t1 t2 = none ∧
      analyze_market 6 3 symbol twoBars other t0 t1 t2 = none) :=
  C3_short_series_generic_error 6 3 twoBars (by decide)

theorem generateSignal_entry (symbol : String) (current previous : IndRow)
    (sr : SRLevels) (ht : TrendDirection) (s : TradingSignal)
    (h : generateSignal symbol current previous sr ht = some s) :
    s.entry_price = current.close := by
  rcases generateSignal_cases symbol current previous sr ht s h with
    ⟨_, hc, hp, hb⟩ | ⟨_, hc, hp, hb⟩
  · rw [generateSignal] at h
    simp only [hc, hp, hb, and_self, if_pos, if_true, ite_true] at h
    injection h with h
    rw [← h]
  · have hc1 : ¬ (current.supertrend_direction = some 1) := by
      rw [hc]
      intro hx
      injection hx with hx
      exact negone_ne_one_q hx
    rw [generateSignal] at h
    rw [if_neg (fun hx => hc1 hx.1)] at h
    simp only [hc, hp, hb, and_self, if_pos, if_true, ite_true] at h
    injection h with h
    rw [← h]

set_option maxRecDepth 10000 in
/-- C6 counterexample: a 60-row primary frame whose computed envelope
direction is −1 on bars 1..58 and +1 on bars 59..60 (the flip happened one
bar before the end), with a bullish higher-timeframe trend, produces NO
signal at all — `_generate_signal` inspects only the last two rows, whose
directions are both +1, so no crossover is detected and the claimed BUY (with
entry at bar 59's close) does not exist. -/
theorem C6_counterexample :
    dfScenario.length = 60 ∧
    (dfScenario.take 58).all
      (fun r => r.supertrend_direction == some (-1)) = true ∧
    (dfScenario.drop 58).all
      (fun r => r.supertrend_direction == some 1) = true ∧
    trendOfVal rowHigherS.supertrend_direction = TrendDirection.BULLISH ∧
    (analyzeFrom "X" pmS rowHigherS dfScenario 0 0 0).map
      AnalysisResult.signal = Except.ok none := by
  refine ⟨?_, ?_, ?_, ?_, ?_⟩ <;> with_unfolding_all rfl

/-- C6 (amended): for every primary frame of 60 rows whose computed envelope
direction is −1 on bars 1..59 and +1 on bar 60 (the flip lands on the final
bar), with a bullish higher-timeframe trend, the successfully assembled
analysis result carries a BUY signal whose entry price is bar 60's close. -/
theorem C6_buy_on_final_bar_flip (symbol : String) (pm : List MarketData)
    (hlast : IndRow) (dfP : List IndRow) (t0 t1 t2 : Int)
    (res : AnalysisResult) (latest : IndRow)
    (hlen : dfP.length = 60)
    (hneg : ∀ r ∈ dfP.take 59, r.supertrend_direction = some (-1))
    (hposd : ∀ r ∈ dfP.drop 59, r.supertrend_direction = some 1)
    (hht : trendOfVal hlast.supertrend_direction = TrendDirection.BULLISH)
    (h : analyzeFrom symbol pm hlast dfP t0 t1 t2 = Except.ok res)
    (hl : dfP.getLast? = some latest) :
    ∃ s, res.signal = some s ∧ s.signal_type = SignalType.BUY ∧
      s.entry_price = latest.close := by
  obtain ⟨sr, latest2, previous, mlast, hsr, hl2, hp2, hm, hres⟩ :=
    analyzeFrom_ok symbol pm hlast dfP t0 t1 t2 res h
  rw [hl] at hl2
  injection hl2 with hl2
  subst hl2
  -- decompose the frame as zs ++ [previous, latest]
  obtain ⟨ys, hys⟩ := List.getLast?_eq_some_iff.mp hl
  have hys2 : secondLast? dfP = ys.getLast? := by
    rw [hys, secondLast?, List.reverse_append]
    simp [List.head?_reverse]
  have hprevL : ys.getLast? = some previous := by rw [← hys2, hp2]
  obtain ⟨zs, hzs⟩ := List.getLast?_eq_some_iff.mp hprevL
  have hdf : dfP = zs ++ [previous, latest] := by
    rw [hys, hzs]
    simp
  have hzslen : zs.length = 58 := by
    have : dfP.length = zs.length + 2 := by rw [hdf]; simp
    omega
  have hmem_lat : latest ∈ dfP.drop 59 := by
    rw [hdf]
    have h59 : 59 = zs.length + 1 := by omega
    rw [h59, List.drop_append]
    simp
  have hmem_prev : previous ∈ dfP.take 59 := by
    rw [hdf]
    have h59 : 59 = zs.length + 1 := by omega
    rw [h59, List.take_append]
    simp
  have hcur : latest.supertrend_direction = some 1 := hposd latest hmem_lat
  have hprevdir : previous.supertrend_direction = some (-1) :=
    hneg previous hmem_prev
  have hsome : (generateSignal symbol latest previous sr
      (trendOfVal hlast.supertrend_direction)).isSome = true :=
    (generateSignal_isSome_iff symbol latest previous sr _).mpr
      (Or.inl ⟨hcur, hprevdir, hht⟩)
  obtain ⟨s, hs⟩ := Option.isSome_iff_exists.mp hsome
  refine ⟨s, ?_, ?_, ?_⟩
  · rw [hres]
    exact hs
  · rcases generateSignal_cases symbol latest previous sr
        (trendOfVal hlast.supertrend_direction) s hs with
      ⟨hty, _, _, _⟩ | ⟨_, hc, _, _⟩
    · exact hty
    · rw [hcur] at hc
      injection hc with hc
      exact absurd hc.symm negone_ne_one_q
  · exact generateSignal_entry symbol latest previous sr _ s hs

set_option maxRecDepth 10000 in
/-- Witness for the amended C6 at the concrete 60-row frame with the flip on
the final bar: the result carries a BUY with entry price 10 (= bar 60's
close). -/
theorem C6_witness :
    ∃ s, resC6.signal = some s ∧ s.signal_type = SignalType.BUY ∧
      s.entry_price = rowPosS.close :=
  C6_buy_on_final_bar_flip "X" pmS rowHigherS dfScenarioAmended 0 0 0 resC6
    rowPosS
    (by with_unfolding_all rfl)
    (by with_unfolding_all decide)
    (by with_unfolding_all decide)
    (by with_unfolding_all rfl)
    (by with_unfolding_all rfl)
    (by with_unfolding_all rfl)

/-! ### Helper lemmas: column lengths -/

theorem stGo_length (mult : ℚ) (d : Int) (bands : Option (ℚ × ℚ)) (pc : ℚ)
    (l : List MarketData) : (stGo mult d bands pc l).length = l.length := by
  induction l generalizing d bands pc with
  | nil => cases bands <;> rfl
  | cons b rest ih =>
    cases bands with
    | none =>
      rw [stGo]
      simp [ih]
    | some pb =>
      obtain ⟨pub, plb⟩ := pb
      rw [stGo]
      simp [ih]

theorem supertrendCols_length (mult : ℚ) (bars : List MarketData) :
    (supertrendCols mult bars).length = bars.length := by
  cases bars with
  | nil => rfl
  | cons b bs =>
    rw [supertrendCols]
    simp [stGo_length]

theorem stValCol_length (mult : ℚ) (bars : List MarketData) :
    (stValCol mult bars).length = bars.length := by
  rw [stValCol, List.length_map, supertrendCols_length]

theorem stDirCol_length (mult : ℚ) (bars : List MarketData) :
    (stDirCol mult bars).length = bars.length := by
  rw [stDirCol, List.length_map, supertrendCols_length]

theorem emaGo_length (alpha a : ℚ) (l : List ℚ) :
    (emaGo alpha a l).length = l.length := by
  induction l generalizing a with
  | nil => rfl
  | cons x xs ih =>
    rw [emaGo]
    simp [ih]

theorem ema_length (n : ℚ) (l : List ℚ) : (ema n l).length = l.length := by
  cases l with
  | nil => rfl
  | cons x xs =>
    rw [ema]
    simp [emaGo_length]

theorem macdLine_length (closes : List ℚ) :
    (macdLine closes).length = closes.length := by
  rw [macdLine, List.length_zipWith, ema_length, ema_length]
  simp

theorem macdSignalLine_length (closes : List ℚ) :
    (macdSignalLine closes).length = closes.length := by
  rw [macdSignalLine, ema_length, macdLine_length]

theorem macdLineCol_length (closes : List ℚ) :
    (macdLineCol closes).length = closes.length := by
  rw [macdLineCol, List.length_map, macdLine_length]

theorem macdSignalCol_length (closes : List ℚ) :
    (macdSignalCol closes).length = closes.length := by
  rw [macdSignalCol, List.length_map, macdSignalLine_length]

theorem rmaGo_length (p a : ℚ) (l : List ℚ) :
    (rmaGo p a l).length = l.length := by
  induction l generalizing a with
  | nil => rfl
  | cons x xs ih =>
    rw [rmaGo]
    simp [ih]

theorem wilderAvgs_length (xs : List ℚ) (h : 14 ≤ xs.length) :
    (wilderAvgs xs).length = xs.length - 13 := by
  rw [wilderAvgs, if_neg (by omega)]
  simp [rmaGo_length]
  omega

theorem gainsOf_length (closes : List ℚ) :
    (gainsOf closes).length = closes.length - 1 := by
  rw [gainsOf, List.length_zipWith, List.length_tail]
  omega

theorem lossesOf_length (closes : List ℚ) :
    (lossesOf closes).length = closes.length - 1 := by
  rw [lossesOf, List.length_zipWith, List.length_tail]
  omega

theorem rsiCol_length (closes : List ℚ) (h : 15 ≤ closes.length) :
    (rsiCol closes).length = closes.length := by
  rw [rsiCol, List.length_append, List.length_replicate, List.length_zipWith,
    wilderAvgs_length _ (by rw [gainsOf_length]; omega),
    wilderAvgs_length _ (by rw [lossesOf_length]; omega),
    gainsOf_length, lossesOf_length]
  omega

theorem pivotHighCol_length (r : Nat) (bars : List MarketData) :
    (pivotHighCol r bars).length = bars.length := by
  rw [pivotHighCol]
  simp

theorem pivotLowCol_length (r : Nat) (bars : List MarketData) :
    (pivotLowCol r bars).length = bars.length := by
  rw [pivotLowCol]
  simp

theorem edgeFill_getD_ne_none (l : List (Option ℚ)) (i : Nat)
    (hx : ∃ x, some x ∈ l) (hi : i < l.length) :
    (edgeFill l).getD i none ≠ none := by
  have hlen : i < (edgeFill l).length := by rw [edgeFill_length]; exact hi
  have hmem := getD_mem (edgeFill l) i hlen
  have hs := edgeFill_isSome l hx _ hmem
  intro hnone
  rw [hnone] at hs
  simp at hs

/-- C8: after the indicator-computation pass on any series accepted by the
engine, if each rolling family (envelope value and direction, oscillator,
convergence line and signal, centered pivot highs and lows) has at least one
defined sample in its raw column, then every row of the output frame has a
defined value for every indicator field: the backward-then-forward edge-fill
pass (lines 74-76) fills all leading and trailing gaps, including the
pivot values of the last `radius` bars that the centered window leaves
undefined. -/
theorem C8_edge_fill_total (pivotR : Nat) (mult : ℚ) (bars : List MarketData)
    (rows : List IndRow)
    (h : calcIndicators pivotR mult bars = Except.ok rows)
    (hEnvV : (stValCol mult (marketDataToDf bars)).any Option.isSome = true)
    (hEnvD : (stDirCol mult (marketDataToDf bars)).any Option.isSome = true)
    (hOsc : (rsiCol ((marketDataToDf bars).map MarketData.close)).any
      Option.isSome = true)
    (hML : (macdLineCol ((marketDataToDf bars).map MarketData.close)).any
      Option.isSome = true)
    (hMS : (macdSignalCol ((marketDataToDf bars).map MarketData.close)).any
      Option.isSome = true)
    (hPH : (pivotHighCol pivotR (marketDataToDf bars)).any Option.isSome = true)
    (hPL : (pivotLowCol pivotR (marketDataToDf bars)).any Option.isSome = true) :
    ∀ row ∈ rows, row.supertrend ≠ none ∧ row.supertrend_direction ≠ none ∧
      row.rsi ≠ none ∧ row.macd_line ≠ none ∧ row.macd_signal ≠ none ∧
      row.pivot_high ≠ none ∧ row.pivot_low ≠ none := by
  have hex : ∀ l : List (Option ℚ), l.any Option.isSome = true →
      ∃ x, some x ∈ l := by
    intro l hl
    obtain ⟨o, ho, hos⟩ := List.any_eq_true.mp hl
    obtain ⟨x, hx⟩ := Option.isSome_iff_exists.mp hos
    exact ⟨x, by rw [← hx]; exact ho⟩
  rw [calcIndicators] at h
  by_cases h0 : (marketDataToDf bars).length = 0
  · rw [if_pos h0] at h
    exact absurd h (by simp)
  · rw [if_neg h0] at h
    by_cases h26 : (marketDataToDf bars).length < 26
    · rw [if_pos h26] at h
      exact absurd h (by simp)
    · rw [if_neg h26] at h
      injection h with h
      subst h
      intro row hrow
      rw [buildRows] at hrow
      simp only [List.mem_map, List.mem_range] at hrow
      obtain ⟨i, hi, hfi⟩ := hrow
      subst hfi
      have hn26 : 26 ≤ (marketDataToDf bars).length := by omega
      have hclen : ((marketDataToDf bars).map MarketData.close).length =
          (marketDataToDf bars).length := by simp
      refine ⟨?_, ?_, ?_, ?_, ?_, ?_, ?_⟩
      · exact edgeFill_getD_ne_none _ i (hex _ hEnvV)
          (by rw [stValCol_length]; exact hi)
      · exact edgeFill_getD_ne_none _ i (hex _ hEnvD)
          (by rw [stDirCol_length]; exact hi)
      · exact edgeFill_getD_ne_none _ i (hex _ hOsc)
          (by rw [rsiCol_length _ (by rw [hclen]; omega), hclen]; exact hi)
      · exact edgeFill_getD_ne_none _ i (hex _ hML)
          (by rw [macdLineCol_length, hclen]; exact hi)
      · exact edgeFill_getD_ne_none _ i (hex _ hMS)
          (by rw [macdSignalCol_length, hclen]; exact hi)
      · exact edgeFill_getD_ne_none _ i (hex _ hPH)
          (by rw [pivotHighCol_length]; exact hi)
      · exact edgeFill_getD_ne_none _ i (hex _ hPL)
          (by rw [pivotLowCol_length]; exact hi)

theorem getD_mem_of_lt {α : Type} [Inhabited α] (l : List α) (i : Nat)
    (hi : i < l.length) : l.getD i default ∈ l := by
  induction l generalizing i with
  | nil => simp at hi
  | cons a t ih =>
    cases i with
    | zero => simp
    | succ j =>
      simp only [List.getD_cons_succ]
      exact List.mem_cons_of_mem a (ih j (by simpa using hi))

set_option maxRecDepth 10000 in
/-- Witness for C8: the 26-bar series with one bump has a defined sample in
every indicator family, so the last row of its computed frame — whose pivot
values the centered window leaves undefined before the fill — has every
indicator field defined. -/
theorem C8_witness :
    ((buildRows 6 3 (marketDataToDf c8Bars)).getD 25 default).supertrend ≠ none ∧
    ((buildRows 6 3 (marketDataToDf c8Bars)).getD 25 default).supertrend_direction ≠ none ∧
    ((buildRows 6 3 (marketDataToDf c8Bars)).getD 25 default).rsi ≠ none ∧
    ((buildRows 6 3 (marketDataToDf c8Bars)).getD 25 default).macd_line ≠ none ∧
    ((buildRows 6 3 (marketDataToDf c8Bars)).getD 25 default).macd_signal ≠ none ∧
    ((buildRows 6 3 (marketDataToDf c8Bars)).getD 25 default).pivot_high ≠ none ∧
    ((buildRows 6 3 (marketDataToDf c8Bars)).getD 25 default).pivot_low ≠ none :=
  C8_edge_fill_total 6 3 c8Bars (buildRows 6 3 (marketDataToDf c8Bars))
    (by with_unfolding_all rfl)
    (by with_unfolding_all rfl)
    (by with_unfolding_all rfl)
    (by with_unfolding_all rfl)
    (by with_unfolding_all rfl)
    (by with_unfolding_all rfl)
    (by with_unfolding_all rfl)
    (by with_unfolding_all rfl)
    ((buildRows 6 3 (marketDataToDf c8Bars)).getD 25 default)
    (getD_mem_of_lt _ 25 (by with_unfolding_all decide))

/-! ### Helper lemmas: oscillator bounds -/

theorem zipWith_nonneg (f : ℚ → ℚ → ℚ) (hf : ∀ a b, 0 ≤ f a b) :
    ∀ (as bs : List ℚ), ∀ y ∈ List.zipWith f as bs, 0 ≤ y := by
  intro as
  induction as with
  | nil => simp
  | cons a as ih =>
    intro bs
    cases bs with
    | nil => simp
    | cons b bs =>
      intro y hy
      rw [List.zipWith_cons_cons] at hy
      rcases List.mem_cons.mp hy with h1 | h1
      · rw [h1]; exact hf a b
      · exact ih bs y h1

theorem gainsOf_nonneg (closes : List ℚ) : ∀ g ∈ gainsOf closes, 0 ≤ g := by
  rw [gainsOf]
  exact zipWith_nonneg _ (fun a b => le_max_right _ _) _ _

theorem lossesOf_nonneg (closes : List ℚ) : ∀ g ∈ lossesOf closes, 0 ≤ g := by
  rw [lossesOf]
  exact zipWith_nonneg _ (fun a b => le_max_right _ _) _ _

theorem rmaGo_nonneg (a : ℚ) (l : List ℚ) (ha : 0 ≤ a)
    (hl : ∀ x ∈ l, 0 ≤ x) : ∀ y ∈ rmaGo 14 a l, 0 ≤ y := by
  induction l generalizing a with
  | nil => simp [rmaGo]
  | cons x xs ih =>
    intro y hy
    rw [rmaGo] at hy
    have hx := hl x (List.mem_cons_self x xs)
    have hstep : (0 : ℚ) ≤ ((14 - 1) * a + x) / 14 := by
      apply div_nonneg _ (by norm_num)
      have : (0 : ℚ) ≤ (14 - 1) * a := by
        apply mul_nonneg _ ha
        norm_num
      linarith
    rcases List.mem_cons.mp hy with h1 | h1
    · rw [h1]; exact hstep
    · exact ih _ hstep (fun z hz => hl z (List.mem_cons_of_mem _ hz)) y h1

theorem wilderAvgs_nonneg (xs : List ℚ) (hxs : ∀ x ∈ xs, 0 ≤ x) :
    ∀ y ∈ wilderAvgs xs, 0 ≤ y := by
  rw [wilderAvgs]
  by_cases h : xs.length < 14
  · rw [if_pos h]; simp
  · rw [if_neg h]
    have hseed : (0 : ℚ) ≤ (xs.take 14).sum / 14 := by
      apply div_nonneg _ (by norm_num)
      apply List.sum_nonneg
      intro x hx
      exact hxs x (List.mem_of_mem_take hx)
    intro y hy
    rcases List.mem_cons.mp hy with h1 | h1
    · rw [h1]; exact hseed
    · exact rmaGo_nonneg _ _ hseed
        (fun z hz => hxs z (List.mem_of_mem_drop hz)) y h1

theorem rsiVal_bounds (ag al v : ℚ) (hag : 0 ≤ ag) (hal : 0 ≤ al)
    (h : rsiVal ag al = some v) : 0 ≤ v ∧ v ≤ 100 := by
  rw [rsiVal] at h
  by_cases h0 : ag + al = 0
  · rw [if_pos h0] at h
    exact absurd h (by simp)
  · rw [if_neg h0] at h
    injection h with h
    have hpos : 0 < ag + al :=
      lt_of_le_of_ne (by linarith) (Ne.symm h0)
    constructor
    · rw [← h]
      apply div_nonneg _ (le_of_lt hpos)
      linarith
    · rw [← h, div_le_iff₀ hpos]
      linarith

theorem zipWith_rsiVal_bounded :
    ∀ (as bs : List ℚ), (∀ a ∈ as, 0 ≤ a) → (∀ b ∈ bs, 0 ≤ b) →
    ∀ o ∈ List.zipWith rsiVal as bs, ∀ v, o = some v → 0 ≤ v ∧ v ≤ 100 := by
  intro as
  induction as with
  | nil => simp
  | cons a as ih =>
    intro bs
    cases bs with
    | nil => simp
    | cons b bs =>
      intro ha hb o ho v hv
      rw [List.zipWith_cons_cons] at ho
      rcases List.mem_cons.mp ho with h1 | h1
      · rw [h1] at hv
        exact rsiVal_bounds a b v (ha a (List.mem_cons_self a as))
          (hb b (List.mem_cons_self b bs)) hv
      · exact ih bs (fun z hz => ha z (List.mem_cons_of_mem _ hz))
          (fun z hz => hb z (List.mem_cons_of_mem _ hz)) o h1 v hv

/-- C9: every defined value of the oscillator column lies in [0,100]
inclusive (the Wilder-smoothed average gains and losses are nonnegative, so
`100·ag/(ag+al)` is bounded); and when the average loss is zero (with a
positive average gain) the oscillator is exactly 100, rather than a
division-by-zero error. -/
theorem C9_rsi_bounded (closes : List ℚ) :
    (∀ o ∈ rsiCol closes, ∀ v, o = some v → 0 ≤ v ∧ v ≤ 100) ∧
    (∀ ag al : ℚ, 0 < ag → al = 0 → rsiVal ag al = some 100) := by
  constructor
  · intro o ho v hv
    rw [rsiCol] at ho
    rcases List.mem_append.mp ho with h1 | h1
    · rw [List.eq_of_mem_replicate h1] at hv
      exact absurd hv (by simp)
    · exact zipWith_rsiVal_bounded _ _
        (wilderAvgs_nonneg _ (gainsOf_nonneg closes))
        (wilderAvgs_nonneg _ (lossesOf_nonneg closes)) o h1 v hv
  · intro ag al hag hal
    subst hal
    rw [rsiVal, add_zero, if_neg hag.ne']
    congr 1
    rw [mul_div_assoc, div_self hag.ne', mul_one]

/-- Witness for C9: on fifteen strictly rising closes the single computed
oscillator value is exactly 100, and the bounds instantiate there. -/
theorem C9_witness : ((0 : ℚ) ≤ 100 ∧ (100 : ℚ) ≤ 100) ∧
    rsiVal 1 0 = some 100 :=
  ⟨(C9_rsi_bounded closes15).1 (some 100) (by with_unfolding_all decide)
      100 rfl,
    (C9_rsi_bounded closes15).2 1 0 (by norm_num) rfl⟩
